import Mathlib

/-!
Task date-overlap detection (`src/utils/taskOverlap.js`)

A shallow embedding of the overlap detector of the project-management
dashboard, and the properties its specification states about it.

Modelling conventions.

* A task field holds a primitive JavaScript value (`JSVal`): the tasks come
  from a JSON response, a field that is absent reads as `undefined`.
  Numbers are the integer-valued ones.
* `new Date(v)` is modelled by its time value, `Option Int`: milliseconds
  since the epoch, `none` for an Invalid Date (time value `NaN`).  The parser
  of date strings (`Date.parse`) is a host builtin whose result depends on
  the engine and the time zone, so it is a parameter `parse` of every
  function that reaches it.
* The warnings object is a plain `{}`.  It is modelled by the list of what the
  assignments `warnings[key] = value` stored: its own properties, and under
  the key `__proto__` the array that such an assignment made its prototype
  (on a plain object that assignment sets the prototype and creates no
  property).  `Object.keys` lists the own properties, integer-like keys first.
  What a read finds further up the prototype chain (`toString`,
  `constructor`, ...) depends on the host and is a parameter `inherited`.
-/

namespace TaskOverlap

/-- Primitive JavaScript values a field of a task can hold.  A number `num n`
is an integer-valued one in the safe range, whose decimal digits are its
string form. -/
inductive JSVal where
  | undefined : JSVal
  | null : JSVal
  | bool (b : Bool) : JSVal
  | num (n : Int) : JSVal
  | str (s : String) : JSVal
  deriving DecidableEq

/-- The truthiness test of JavaScript (`ToBoolean`), as used by `!x` and
`if (x)`: `undefined`, `null`, `false`, `0` and the empty string are falsy. -/
def toBoolean : JSVal → Bool
  | .undefined => false
  | .null => false
  | .bool b => b
  | .num n => n != 0
  | .str s => s != ""

/-- Strict equality `a === b` on primitive values: same type and same value. -/
def strictEq : JSVal → JSVal → Bool
  | .undefined, .undefined => true
  | .null, .null => true
  | .bool a, .bool b => a == b
  | .num a, .num b => a == b
  | .str a, .str b => a == b
  | _, _ => false

/-- The conversion of a value to a property key (`ToPropertyKey`), applied by
`warnings[task.id]`. -/
def toPropertyKey : JSVal → String
  | .undefined => "undefined"
  | .null => "null"
  | .bool b => if b then "true" else "false"
  | .num n => toString n
  | .str s => s

/-- The operation `TimeClip`: a time value further than 8.64e15 ms from the
epoch is not a date. -/
def timeClip (t : Int) : Option Int :=
  if t.natAbs ≤ 8640000000000000 then some t else none

/-- The time value of `new Date(v)`; `none` is an Invalid Date.  A string goes
through the host parser, any other primitive through `ToNumber`. -/
def newDate (parse : String → Option Int) : JSVal → Option Int
  | .undefined => none
  | .null => timeClip 0
  | .bool b => timeClip (if b then 1 else 0)
  | .num n => timeClip n
  | .str s => (parse s).bind timeClip

/-- The comparison `a <= b` of two `Date` objects: of their time values, and
false as soon as one of them is `NaN`. -/
def dateLe : Option Int → Option Int → Bool
  | some x, some y => decide (x ≤ y)
  | _, _ => false

/-- The function `datesOverlap(start1, end1, start2, end2)`. -/
def datesOverlap (parse : String → Option Int) (start1 end1 start2 end2 : JSVal) : Bool :=
  if !toBoolean start1 || !toBoolean end1 || !toBoolean start2 || !toBoolean end2 then
    false
  else
    let s1 := newDate parse start1
    let e1 := newDate parse end1
    let s2 := newDate parse start2
    let e2 := newDate parse end2
    dateLe s1 e2 && dateLe s2 e1

/-- A task object, with the fields the detector and the timeline read. -/
structure Task where
  id : JSVal
  startDate : JSVal
  endDate : JSVal
  title : JSVal := JSVal.undefined
  projectId : JSVal := JSVal.undefined
  deriving DecidableEq

/-- The function `tasksOverlap(task1, task2)`. -/
def tasksOverlap (parse : String → Option Int) (task1 task2 : Task) : Bool :=
  if !toBoolean task1.startDate || !toBoolean task1.endDate
      || !toBoolean task2.startDate || !toBoolean task2.endDate then
    false
  else
    datesOverlap parse task1.startDate task1.endDate task2.startDate task2.endDate

/-- The callback of the `filter` in `findOverlappingTasks`. -/
def overlapFilter (parse : String → Option Int) (task t : Task) : Bool :=
  if strictEq t.id task.id then false
  else if !toBoolean t.startDate || !toBoolean t.endDate then false
  else tasksOverlap parse task t

/-- The function `findOverlappingTasks(task, allTasks)`. -/
def findOverlappingTasks (parse : String → Option Int) (task : Task)
    (allTasks : List Task) : List JSVal :=
  if !toBoolean task.startDate || !toBoolean task.endDate then
    []
  else
    (allTasks.filter (fun t => overlapFilter parse task t)).map (fun t => t.id)

/-- The function `hasOverlaps(task, allTasks)`. -/
def hasOverlaps (parse : String → Option Int) (task : Task) (allTasks : List Task) : Bool :=
  decide ((findOverlappingTasks parse task allTasks).length > 0)

/-- The warnings object, as the list of what the assignments stored in it, in
the order of the first assignment to each key: every entry is an own property
with its sequence of ids, except the entry of the key `__proto__`, which is
the array that became the prototype of the object. -/
abbrev Warnings := List (String × List JSVal)

/-- The assignment `obj[key] = value`: a key assigned before gets the new
value and keeps its place, a new one is added at the end.  (For `__proto__`
the value replaces the prototype.) -/
def objSet : Warnings → String → List JSVal → Warnings
  | [], key, value => [(key, value)]
  | (k, v) :: rest, key, value =>
    if k = key then (key, value) :: rest else (k, v) :: objSet rest key value

/-- The read `obj[key]` as far as the object answers it by what was assigned:
the value of an own property, and for `__proto__` the array set as prototype.
`none` when nothing was assigned under the key; the read then goes up the
prototype chain (see `readTruthy`). -/
def objGet : Warnings → String → Option (List JSVal)
  | [], _ => none
  | (k, v) :: rest, key => if k = key then some v else objGet rest key

/-- The keys under which something was assigned, in the order of assignment. -/
def rawKeys (obj : Warnings) : List String :=
  obj.map (fun entry => entry.1)

/-- The callback of the `forEach` in `getOverlapWarnings`, as a step on the
`warnings` object. -/
def warnStep (parse : String → Option Int) (tasks : List Task)
    (warnings : Warnings) (task : Task) : Warnings :=
  if toBoolean task.startDate && toBoolean task.endDate then
    let overlapping := findOverlappingTasks parse task tasks
    if overlapping.length > 0 then
      objSet warnings (toPropertyKey task.id) overlapping
    else warnings
  else warnings

/-- The function `getOverlapWarnings(tasks)`. -/
def getOverlapWarnings (parse : String → Option Int) (tasks : List Task) : Warnings :=
  tasks.foldl (warnStep parse tasks) []

/-- Both dates of a task are present, the test `task.startDate && task.endDate`. -/
def hasDates (t : Task) : Bool :=
  toBoolean t.startDate && toBoolean t.endDate

/-- The sequence `findConflicts` of the specification, written from its words:
go through the collection in order and keep the id of every element that is
not the target (by id), has both dates, and overlaps the target. -/
def specFindConflicts (parse : String → Option Int) (task : Task) : List Task → List JSVal
  | [] => []
  | t :: rest =>
    if t.id ≠ task.id ∧ hasDates t = true ∧ tasksOverlap parse task t = true then
      t.id :: specFindConflicts parse task rest
    else specFindConflicts parse task rest

/-- The ids of a collection are unique: no two items have the same id, ids
being told apart the way the warnings object tells its keys apart, as property
keys.  For ids that are all strings this is plain distinctness; the number `1`
and the string `"1"` are one key, so a collection holding both does not have
unique ids in this sense. -/
def uniqueIds (tasks : List Task) : Prop :=
  (tasks.map (fun t => toPropertyKey t.id)).Nodup

/-- The id `b` is listed in `warnings[a]`: the object has a sequence under the
key of `a`, and `b` is one of its elements. -/
def listedUnder (warnings : Warnings) (a b : JSVal) : Prop :=
  ∃ ids, objGet warnings (toPropertyKey a) = some ids ∧ b ∈ ids

/-- The item gets an entry written by `getOverlapWarnings`: it has both dates
and its conflict sequence over the collection is not empty. -/
def reportsConflicts (parse : String → Option Int) (tasks : List Task) (x : Task) : Prop :=
  hasDates x = true ∧ findOverlappingTasks parse x tasks ≠ []

instance (tasks : List Task) : Decidable (uniqueIds tasks) := by
  unfold uniqueIds
  infer_instance

/-- The value `v` is a valid date with time value `t`: it is present (truthy)
and `new Date(v)` is the valid date of that time value. -/
def dateAt (parse : String → Option Int) (v : JSVal) (t : Int) : Prop :=
  toBoolean v = true ∧ newDate parse v = some t

/-- The decimal digit a character stands for. -/
def digitOf (c : Char) : Option Nat :=
  if 48 ≤ c.toNat ∧ c.toNat ≤ 57 then some (c.toNat - 48) else none

/-- The day number of the first day of year `y` (`DayFromYear` of ECMAScript). -/
def dayFromYear (y : Int) : Int :=
  365 * (y - 1970) + (y - 1969) / 4 - (y - 1901) / 100 + (y - 1601) / 400

/-- Leap years of the Gregorian calendar. -/
def isLeapYear (y : Nat) : Bool :=
  y % 4 == 0 && (y % 100 != 0 || y % 400 == 0)

/-- The number of days of month `m` (1 to 12) of year `y`. -/
def daysInMonth (y m : Nat) : Nat :=
  if m = 2 then (if isLeapYear y then 29 else 28)
  else if m = 4 ∨ m = 6 ∨ m = 9 ∨ m = 11 then 30
  else 31

/-- The number of days of year `y` before its month `m`. -/
def daysBeforeMonth (y m : Nat) : Nat :=
  ((List.range (m - 1)).map (fun i => daysInMonth y (i + 1))).sum

/-- The parser of the examples: `Date.parse` of ECMAScript on the date-only
form `YYYY-MM-DD` of the date-time string format, which is what the detector
documents for its arguments.  A valid calendar date reads as midnight UTC of
that day, in milliseconds since the epoch; any other string is not a date for
this parser.  The theorems hold for every parser. -/
def isoDateParse (s : String) : Option Int :=
  match s.data with
  | [y1, y2, y3, y4, sep1, m1, m2, sep2, d1, d2] =>
    match digitOf y1, digitOf y2, digitOf y3, digitOf y4,
        digitOf m1, digitOf m2, digitOf d1, digitOf d2 with
    | some a, some b, some c, some d, some e, some f, some g, some h =>
      let y := 1000 * a + 100 * b + 10 * c + d
      let m := 10 * e + f
      let day := 10 * g + h
      if sep1 = '-' ∧ sep2 = '-' ∧ 1 ≤ m ∧ m ≤ 12 ∧ 1 ≤ day ∧ day ≤ daysInMonth y m then
        some ((dayFromYear y + daysBeforeMonth y m + day - 1) * 86400000)
      else none
    | _, _, _, _, _, _, _, _ => none
  | _ => none

/-- The parser of the examples that carry a time of day: the date-only form
as `isoDateParse` reads it, and the form `YYYY-MM-DDTHH:mm:ssZ` of the
ECMAScript date-time string format, a UTC time: the time value of the day plus
the milliseconds of the time of day.  Any other string is not a date for this
parser. -/
def isoDateTimeParse (s : String) : Option Int :=
  match s.data.drop 10 with
  | [] => isoDateParse s
  | [t, h1, h2, c1, m1, m2, c2, s1, s2, z] =>
    match isoDateParse (String.mk (s.data.take 10)),
        digitOf h1, digitOf h2, digitOf m1, digitOf m2, digitOf s1, digitOf s2 with
    | some day, some a, some b, some c, some d, some e, some f =>
      let h := 10 * a + b
      let m := 10 * c + d
      let sec := 10 * e + f
      if t = 'T' ∧ c1 = ':' ∧ c2 = ':' ∧ z = 'Z' ∧ h ≤ 23 ∧ m ≤ 59 ∧ sec ≤ 59 then
        some (day + (((h * 3600 + m * 60 + sec) * 1000 : Nat) : Int))
      else none
    | _, _, _, _, _, _, _ => none
  | _ => none

/-- The calendar day (UTC) of a time value: the number of whole days since the
epoch. -/
def calendarDay (t : Int) : Int :=
  t / 86400000

/-- A collection for the examples: `a` (1 to 5 January 2024) and `b` (5 to 10
January) touch on the 5th, `c` is in March and overlaps neither, `d` starts
inside `a` and has no end date. -/
def sampleTasks : List Task :=
  [{ id := .str "a", startDate := .str "2024-01-01", endDate := .str "2024-01-05" },
   { id := .str "b", startDate := .str "2024-01-05", endDate := .str "2024-01-10" },
   { id := .str "c", startDate := .str "2024-03-01", endDate := .str "2024-03-02" },
   { id := .str "d", startDate := .str "2024-01-02", endDate := .undefined }]

/-- An item for the examples whose id is the string `__proto__`, from 1 to 5
January 2024. -/
def protoItem : Task :=
  { id := .str "__proto__", startDate := .str "2024-01-01", endDate := .str "2024-01-05" }

/-- The item `b` of the examples, from 5 to 10 January 2024: it touches
`protoItem` on the 5th. -/
def touchingItem : Task :=
  { id := .str "b", startDate := .str "2024-01-05", endDate := .str "2024-01-10" }

/-- The item `c` of the examples, in March 2024: it overlaps neither
`protoItem` nor `touchingItem`. -/
def marchItem : Task :=
  { id := .str "c", startDate := .str "2024-03-01", endDate := .str "2024-03-02" }

/-- The collection of `protoItem` and `touchingItem`. -/
def protoIdTasks : List Task :=
  [protoItem, touchingItem]

/-- The collection of `protoItem`, `touchingItem` and `marchItem`. -/
def protoIdThree : List Task :=
  [protoItem, touchingItem, marchItem]

/-- Two tasks for the examples with a time of day: `A` ends on 5 January 2024
at 08:00 UTC, `B` starts the same day at 17:00 UTC. -/
def morningTask : Task :=
  { id := .str "A", startDate := .str "2024-01-01", endDate := .str "2024-01-05T08:00:00Z" }

/-- The task `B` of the examples with a time of day. -/
def eveningTask : Task :=
  { id := .str "B", startDate := .str "2024-01-05T17:00:00Z", endDate := .str "2024-01-10" }

/-! ## Elements that are not task objects, and exceptions

The functions above take task objects.  The array handed to the detector is
whatever the server sent, so an element can also be a primitive value; reading
a property of `null` or `undefined` raises a `TypeError`.  The definitions
below follow the same source lines with every property read made explicit, in
the order in which JavaScript evaluates them. -/

/-- The exception the detector can raise. -/
inductive JSError where
  | typeError : JSError
  deriving DecidableEq

/-- An element of the input array: a task object, or a primitive value. -/
inductive Elem where
  | object (t : Task) : Elem
  | primitive (v : JSVal) : Elem
  deriving DecidableEq

/-- The element is `null` or `undefined`. -/
def Elem.isNullish : Elem → Bool
  | .primitive .undefined => true
  | .primitive .null => true
  | _ => false

/-- The properties of a task that the detector reads. -/
inductive Field where
  | id : Field
  | startDate : Field
  | endDate : Field
  deriving DecidableEq

/-- The value of a property of a task object. -/
def Task.get (t : Task) : Field → JSVal
  | .id => t.id
  | .startDate => t.startDate
  | .endDate => t.endDate

/-- The property read `e.field`: the field of a task object, `undefined` on a
boolean, a number or a string (they have no such property), and a `TypeError`
on `null` and `undefined`. -/
def Elem.read (e : Elem) (field : Field) : Except JSError JSVal :=
  match e with
  | .object t => .ok (t.get field)
  | .primitive .undefined => .error .typeError
  | .primitive .null => .error .typeError
  | .primitive _ => .ok .undefined

/-- The task object an element behaves as when its properties can be read: a
primitive has none of the fields. -/
def Elem.asTask : Elem → Task
  | .object t => t
  | .primitive _ => { id := .undefined, startDate := .undefined, endDate := .undefined }

/-- The method `Array.prototype.filter` with a callback that can throw: the
callback runs on the elements in order, and the first exception ends the call. -/
def filterE {α : Type} (p : α → Except JSError Bool) : List α → Except JSError (List α)
  | [] => .ok []
  | x :: xs => do
    let keep ← p x
    let rest ← filterE p xs
    pure (if keep then x :: rest else rest)

/-- The method `Array.prototype.map` with a callback that can throw. -/
def mapE {α β : Type} (f : α → Except JSError β) : List α → Except JSError (List β)
  | [] => .ok []
  | x :: xs => do
    let y ← f x
    let rest ← mapE f xs
    pure (y :: rest)

/-- The function `tasksOverlap(task1, task2)` on arbitrary elements. -/
def tasksOverlapE (parse : String → Option Int) (task1 task2 : Elem) : Except JSError Bool := do
  let s1 ← task1.read .startDate
  if !toBoolean s1 then pure false
  else do
    let e1 ← task1.read .endDate
    if !toBoolean e1 then pure false
    else do
      let s2 ← task2.read .startDate
      if !toBoolean s2 then pure false
      else do
        let e2 ← task2.read .endDate
        if !toBoolean e2 then pure false
        else do
          let a ← task1.read .startDate
          let b ← task1.read .endDate
          let c ← task2.read .startDate
          let d ← task2.read .endDate
          pure (datesOverlap parse a b c d)

/-- The callback of the `filter` in `findOverlappingTasks`, on arbitrary
elements. -/
def overlapFilterE (parse : String → Option Int) (task t : Elem) : Except JSError Bool := do
  let tid ← t.read .id
  let taskId ← task.read .id
  if strictEq tid taskId then pure false
  else do
    let ts ← t.read .startDate
    if !toBoolean ts then pure false
    else do
      let te ← t.read .endDate
      if !toBoolean te then pure false
      else tasksOverlapE parse task t

/-- The function `findOverlappingTasks(task, allTasks)` on arbitrary elements. -/
def findOverlappingTasksE (parse : String → Option Int) (task : Elem)
    (allTasks : List Elem) : Except JSError (List JSVal) := do
  let s ← task.read .startDate
  if !toBoolean s then pure []
  else do
    let e ← task.read .endDate
    if !toBoolean e then pure []
    else do
      let kept ← filterE (fun t => overlapFilterE parse task t) allTasks
      mapE (fun t => t.read .id) kept

/-- The callback of the `forEach` in `getOverlapWarnings`, on arbitrary
elements. -/
def warnStepE (parse : String → Option Int) (tasks : List Elem)
    (warnings : Warnings) (task : Elem) : Except JSError Warnings := do
  let s ← task.read .startDate
  if !toBoolean s then pure warnings
  else do
    let e ← task.read .endDate
    if !toBoolean e then pure warnings
    else do
      let overlapping ← findOverlappingTasksE parse task tasks
      if overlapping.length > 0 then do
        let key ← task.read .id
        pure (objSet warnings (toPropertyKey key) overlapping)
      else pure warnings

/-- The function `getOverlapWarnings(tasks)` on an array of arbitrary elements:
the mapping it returns, or the exception it raises. -/
def getOverlapWarningsE (parse : String → Option Int) (tasks : List Elem) :
    Except JSError Warnings :=
  tasks.foldlM (warnStepE parse tasks) []

/-! ## The call as a run on a state

`getOverlapWarnings` reads the array it is given and writes to its local
object `warnings` only.  The run below carries both through the `forEach`,
so that what a call leaves behind can be stated. -/

/-- The state a call of `getOverlapWarnings` works on: the array it was given
and the object it builds. -/
structure DetectorState where
  tasks : List Task
  warnings : Warnings
  deriving DecidableEq

/-- One round of the `forEach` of `getOverlapWarnings` on the state: the
callback reads the array and assigns to `warnings`. -/
def forEachStep (parse : String → Option Int) (st : DetectorState) (task : Task) :
    DetectorState :=
  { tasks := st.tasks, warnings := warnStep parse st.tasks st.warnings task }

/-- A call of `getOverlapWarnings(tasks)`: the state when it returns, the
mapping returned being its `warnings`. -/
def getOverlapWarningsRun (parse : String → Option Int) (tasks : List Task) : DetectorState :=
  tasks.foldl (forEachStep parse) { tasks := tasks, warnings := [] }

instance (parse : String → Option Int) (tasks : List Task) (x : Task) :
    Decidable (reportsConflicts parse tasks x) := by
  unfold reportsConflicts
  infer_instance

/-! ## The keys of the object and inherited properties -/

/-- The number a list of decimal digits writes; `none` when a character is no
digit. -/
def natOfDigits (cs : List Char) : Option Nat :=
  cs.foldl (fun acc c =>
    match acc, digitOf c with
    | some n, some d => some (10 * n + d)
    | _, _ => none) (some 0)

/-- The array index a property key stands for: the key is the canonical decimal
form of an integer from 0 to 2^32 - 2.  Such keys are the integer-like ones. -/
def arrayIndex (key : String) : Option Nat :=
  if key.data = [] then none
  else
    match natOfDigits key.data with
    | some n => if n < 4294967295 ∧ toString n = key then some n else none
    | none => none

/-- The keys of the object (`Object.keys`): its own properties, the
integer-like keys first in ascending order, then the others in the order of
their creation.  The key `__proto__` is never among them, an assignment to it
creates no property. -/
def objKeys (obj : Warnings) : List String :=
  let own := (rawKeys obj).filter (fun k => k != "__proto__")
  (own.filter (fun k => (arrayIndex k).isSome)).insertionSort
      (fun a b => (arrayIndex a).getD 0 ≤ (arrayIndex b).getD 0)
    ++ own.filter (fun k => (arrayIndex k).isNone)

/-- The entries of the object (`Object.entries`), in the order of
`Object.keys`. -/
def objEntries (obj : Warnings) : List (String × List JSVal) :=
  (objKeys obj).filterMap (fun k => (objGet obj k).map (fun v => (k, v)))

/-- What the detector's callers observe of a value that a read found on the
prototype chain: whether it is truthy, and whether `value?.length > 0` holds
of it.  `undefined` is neither. -/
structure Inherited where
  truthy : Bool
  lengthPositive : Bool
  deriving DecidableEq

/-- The test `!!obj[key]`: an array stored under the key is truthy; otherwise
the read goes up the prototype chain, and the host answers, given the array
that replaced the prototype, if one did. -/
def readTruthy (inherited : Option (List JSVal) → String → Inherited) (obj : Warnings)
    (key : String) : Bool :=
  match objGet obj key with
  | some _ => true
  | none => (inherited (objGet obj "__proto__") key).truthy

/-- The test `obj[key]?.length > 0`. -/
def readLengthPositive (inherited : Option (List JSVal) → String → Inherited)
    (obj : Warnings) (key : String) : Bool :=
  match objGet obj key with
  | some ids => decide (ids.length > 0)
  | none => (inherited (objGet obj "__proto__") key).lengthPositive

/-- The host of the examples: the properties of `Object.prototype` that
ECMAScript names, each a function with its number of parameters as `length`
(`constructor` is `Object`, of length 1), and `__proto__`, which reads as
`Object.prototype` itself when no array took its place.  Any other name reads
as `undefined`.  An array that became the prototype answers the same for these
names (`Array` has length 1 too) and would answer for its indices, `length` and
the array methods as well, which this host leaves out; the examples read no
such name, and the theorems hold for every host. -/
def objectPrototype (_proto : Option (List JSVal)) (key : String) : Inherited :=
  if key = "constructor" ∨ key = "hasOwnProperty" ∨ key = "isPrototypeOf"
      ∨ key = "propertyIsEnumerable" ∨ key = "__defineGetter__"
      ∨ key = "__defineSetter__" ∨ key = "__lookupGetter__"
      ∨ key = "__lookupSetter__" then
    { truthy := true, lengthPositive := true }
  else if key = "toString" ∨ key = "toLocaleString" ∨ key = "valueOf"
      ∨ key = "__proto__" then
    { truthy := true, lengthPositive := false }
  else { truthy := false, lengthPositive := false }

/-! ## The timeline page and the chart (`Timeline.jsx`, `GanttChart.jsx`) -/

/-- The list `filteredTasks` of `Timeline`: the tasks of the selected project
when one is selected, and among them, when only overlapping tasks are to be
shown, those for which `overlapWarnings[task.id]` is truthy, in the warning
map of all tasks. -/
def timelineFilteredTasks (inherited : Option (List JSVal) → String → Inherited)
    (parse : String → Option Int) (tasks : List Task)
    (selectedProjectId : JSVal) (showOverlapsOnly : Bool) : List Task :=
  let overlapWarnings := getOverlapWarnings parse tasks
  tasks.filter (fun task =>
    if toBoolean selectedProjectId && !strictEq task.projectId selectedProjectId then false
    else if showOverlapsOnly
        && !readTruthy inherited overlapWarnings (toPropertyKey task.id) then
      false
    else true)

/-- The list `filteredTasks` of `GanttChart`, from its properties `tasks` and
`selectedProjectId`. -/
def ganttFilteredTasks (tasks : List Task) (selectedProjectId : JSVal) : List Task :=
  if !toBoolean selectedProjectId then tasks
  else tasks.filter (fun task => strictEq task.projectId selectedProjectId)

/-- The map `overlapWarnings` of `GanttChart`, which decides the colours. -/
def ganttOverlapWarnings (parse : String → Option Int) (tasks : List Task)
    (selectedProjectId : JSVal) : Warnings :=
  getOverlapWarnings parse (ganttFilteredTasks tasks selectedProjectId)

/-- The map `overlapWarnings` of `Timeline`, which the summary panel lists. -/
def timelineOverlapWarnings (parse : String → Option Int) (tasks : List Task) : Warnings :=
  getOverlapWarnings parse tasks

/-- The map of the `GanttChart` that `Timeline` renders: the chart gets
`filteredTasks` and `selectedProjectId || null`. -/
def timelineChartWarnings (inherited : Option (List JSVal) → String → Inherited)
    (parse : String → Option Int) (tasks : List Task)
    (selectedProjectId : JSVal) (showOverlapsOnly : Bool) : Warnings :=
  ganttOverlapWarnings parse
    (timelineFilteredTasks inherited parse tasks selectedProjectId showOverlapsOnly)
    (if toBoolean selectedProjectId then selectedProjectId else .null)

/-- The flag `hasOverlap` of a task in `GanttChart`,
`overlapWarnings[task.id]?.length > 0`. -/
def ganttHasOverlap (inherited : Option (List JSVal) → String → Inherited)
    (overlapWarnings : Warnings) (task : Task) : Bool :=
  readLengthPositive inherited overlapWarnings (toPropertyKey task.id)

/-- The function `getStatusColor(status, hasOverlap)` of `GanttChart`. -/
def getStatusColor (status : JSVal) (hasOverlap : Bool) : String :=
  if hasOverlap then "#eab308"
  else if strictEq status (.str "Completed") then "#16a34a"
  else if strictEq status (.str "In Progress") then "#2563eb"
  else if strictEq status (.str "Blocked") then "#dc2626"
  else "#9ca3af"

/-- The value is a string, `typeof v === "string"`. -/
def JSVal.isString : JSVal → Bool
  | .str _ => true
  | _ => false

/-- The lookup `tasks.find((t) => t.id === v)`; `none` stands for `undefined`. -/
def findTask (tasks : List Task) (v : JSVal) : Option Task :=
  tasks.find? (fun t => strictEq t.id v)

/-- The name shown for a listed id in the summary panel,
`overlappingTask?.title || id`. -/
def panelName (tasks : List Task) (id : JSVal) : JSVal :=
  match findTask tasks id with
  | some t => if toBoolean t.title then t.title else id
  | none => id

/-- The row of the summary panel for an entry `[taskId, overlappingIds]` of
`Object.entries(overlapWarnings)`: the title of the task found for the key and
the names of the listed ids, or `none` when no task is found and the row is
dropped.  The key of an entry is a string. -/
def panelRow (tasks : List Task) (entry : String × List JSVal) :
    Option (JSVal × List JSVal) :=
  match findTask tasks (.str entry.1) with
  | none => none
  | some task => some (task.title, entry.2.map (panelName tasks))

/-- The rows of the summary panel of `Timeline`, one for each entry of
`Object.entries(overlapWarnings)`. -/
def overlapPanel (parse : String → Option Int) (tasks : List Task) :
    List (Option (JSVal × List JSVal)) :=
  (objEntries (timelineOverlapWarnings parse tasks)).map (panelRow tasks)

/-- A task of the project `p1` for the examples, from 1 to 5 January 2024. -/
def taskOfP1 : Task :=
  { id := .str "a", startDate := .str "2024-01-01", endDate := .str "2024-01-05",
    projectId := .str "p1" }

/-- A task of the project `p2` for the examples, from 5 to 10 January 2024: it
touches `taskOfP1` on the 5th. -/
def taskOfP2 : Task :=
  { id := .str "b", startDate := .str "2024-01-05", endDate := .str "2024-01-10",
    projectId := .str "p2" }

/-- A task for the examples whose id is the name `toString`, in September
2024. -/
def toStringTask : Task :=
  { id := .str "toString", startDate := .str "2024-09-01", endDate := .str "2024-09-02" }

/-- A task for the examples whose id is the name `constructor`, in November
2024. -/
def constructorTask : Task :=
  { id := .str "constructor", startDate := .str "2024-11-01", endDate := .str "2024-11-02" }

/-! ## The dates of the chart (`ganttData` of `GanttChart.jsx`)

`new Date` of a date-only string is midnight UTC, and `getFullYear`,
`getMonth`, `getDate` and `setDate` work in local time.  The offset of local
time from UTC, in milliseconds, is the parameter `tz` (`LocalTime(t) = t + tz`),
taken constant over the dates of a task. -/

/-- The test of the regular expression `/^\d{4}-\d{2}-\d{2}$/`. -/
def matchesDateRegex (s : String) : Bool :=
  match s.data with
  | [y1, y2, y3, y4, sep1, m1, m2, sep2, d1, d2] =>
    (digitOf y1).isSome && (digitOf y2).isSome && (digitOf y3).isSome && (digitOf y4).isSome
      && sep1 == '-' && (digitOf m1).isSome && (digitOf m2).isSome
      && sep2 == '-' && (digitOf d1).isSome && (digitOf d2).isSome
  | _ => false

/-- The helper `isValidDateString(dateStr)` of `ganttData`: a non-empty string
of the form `YYYY-MM-DD` of which `new Date` is a valid date. -/
def isValidDateString (parse : String → Option Int) (dateStr : JSVal) : Bool :=
  match dateStr with
  | .str s => s != "" && matchesDateRegex s && (newDate parse (.str s)).isSome
  | _ => false

/-- The date `new Date(startDate)` after `setDate(getDate() + 1)`: the local
time of the start, one day later, back as a time value. -/
def addOneDay (tz : Int) (start : Int) : Option Int :=
  let localTime := start + tz
  let nextDay := localTime + 86400000
  timeClip (nextDay - tz)

/-- The variable `endDate` of `ganttData` when the item is emitted: the end
date of the task when it is a valid date string, the start plus one day
otherwise, and the start plus one day again when that is before the start or
equal to it.  `none` is an Invalid Date, with which both comparisons are
false. -/
def ganttEndDate (parse : String → Option Int) (tz : Int) (start : Int) (endDate : JSVal) :
    Option Int :=
  let first :=
    if toBoolean endDate && isValidDateString parse endDate then
      match newDate parse endDate with
      | some e => some e
      | none => addOneDay tz start
    else addOneDay tz start
  match first with
  | some e => if e < start ∨ e = start then addOneDay tz start else some e
  | none => none

/-- The year, month (1 to 12) and day of the month of a day number, in the
Gregorian calendar. -/
def civilFromDays (dayNumber : Int) : Int × Int × Int :=
  let z := dayNumber + 719468
  let era := z / 146097
  let doe := z - era * 146097
  let yoe := (doe - doe / 1460 + doe / 36524 - doe / 146096) / 365
  let doy := doe - (365 * yoe + yoe / 4 - yoe / 100)
  let mp := (5 * doy + 2) / 153
  let d := doy - (153 * mp + 2) / 5 + 1
  let m := if mp < 10 then mp + 3 else mp - 9
  let y := yoe + era * 400
  (if m ≤ 2 then y + 1 else y, m, d)

/-- The text of `String(n).padStart(2, '0')`. -/
def padTwo (n : Int) : String :=
  if 0 ≤ n ∧ n < 10 then "0" ++ toString n else toString n

/-- The helper `formatDate(date)` of `ganttData`: year, month and day of the
local time of the date; an Invalid Date gives `NaN` three times. -/
def formatDate (tz : Int) (date : Option Int) : String :=
  match date with
  | none => "NaN-NaN-NaN"
  | some t =>
    let ymd := civilFromDays ((t + tz) / 86400000)
    toString ymd.1 ++ "-" ++ padTwo ymd.2.1 ++ "-" ++ padTwo ymd.2.2

/-- The fields `start_date` and `end_date` of the item that `ganttData` emits
for a task; `none` when the task is left out (no valid start date). -/
def ganttItemDates (parse : String → Option Int) (tz : Int) (task : Task) :
    Option (String × String) :=
  if toBoolean task.startDate && isValidDateString parse task.startDate then
    match newDate parse task.startDate with
    | none => none
    | some start =>
      some (formatDate tz (some start),
        formatDate tz (ganttEndDate parse tz start task.endDate))
  else none

/-! ## Auxiliary lemmas -/

theorem strictEq_iff (a b : JSVal) : strictEq a b = true ↔ a = b := by
  cases a <;> cases b <;> simp [strictEq]

theorem tasksOverlap_comm (parse : String → Option Int) (a b : Task) :
    tasksOverlap parse a b = tasksOverlap parse b a := by
  unfold tasksOverlap datesOverlap
  cases toBoolean a.startDate <;> cases toBoolean a.endDate <;>
    cases toBoolean b.startDate <;> cases toBoolean b.endDate <;>
    simp [Bool.and_comm]

theorem tasksOverlap_hasDates (parse : String → Option Int) (a b : Task)
    (h : tasksOverlap parse a b = true) : hasDates a = true ∧ hasDates b = true := by
  unfold tasksOverlap at h
  unfold hasDates
  cases h1 : toBoolean a.startDate <;> cases h2 : toBoolean a.endDate <;>
    cases h3 : toBoolean b.startDate <;> cases h4 : toBoolean b.endDate <;>
    simp [h1, h2, h3, h4] at h ⊢

theorem overlapFilter_iff (parse : String → Option Int) (task t : Task) :
    overlapFilter parse task t = true ↔
      (t.id ≠ task.id ∧ hasDates t = true ∧ tasksOverlap parse task t = true) := by
  unfold overlapFilter hasDates
  by_cases hid : t.id = task.id
  · have hs : strictEq t.id task.id = true := (strictEq_iff t.id task.id).mpr hid
    rw [if_pos hs]
    simp [hid]
  · have hne : strictEq t.id task.id = false := by
      cases hs : strictEq t.id task.id
      · rfl
      · exact absurd ((strictEq_iff _ _).mp hs) hid
    cases h1 : toBoolean t.startDate <;> cases h2 : toBoolean t.endDate <;>
      simp [hne, hid, h1, h2]

theorem mem_findOverlappingTasks (parse : String → Option Int) (task : Task)
    (allTasks : List Task) (i : JSVal) :
    i ∈ findOverlappingTasks parse task allTasks ↔
      ∃ t ∈ allTasks, t.id = i ∧ t.id ≠ task.id ∧ hasDates t = true
        ∧ tasksOverlap parse task t = true := by
  unfold findOverlappingTasks
  by_cases hd : hasDates task = true
  · have hg : (!toBoolean task.startDate || !toBoolean task.endDate) = false := by
      unfold hasDates at hd
      cases h1 : toBoolean task.startDate <;> cases h2 : toBoolean task.endDate <;>
        simp [h1, h2] at hd ⊢
    simp only [hg, Bool.false_eq_true, if_false, List.mem_map, List.mem_filter,
      overlapFilter_iff]
    constructor
    · rintro ⟨t, ⟨ht, h⟩, rfl⟩
      exact ⟨t, ht, rfl, h⟩
    · rintro ⟨t, ht, rfl, h⟩
      exact ⟨t, ⟨ht, h⟩, rfl⟩
  · have hg : (!toBoolean task.startDate || !toBoolean task.endDate) = true := by
      unfold hasDates at hd
      cases h1 : toBoolean task.startDate <;> cases h2 : toBoolean task.endDate <;>
        simp [h1, h2] at hd ⊢
    simp only [hg, if_true, List.not_mem_nil, false_iff]
    rintro ⟨t, _, _, _, _, hov⟩
    exact hd (tasksOverlap_hasDates parse task t hov).1

/-! ### The warnings object -/

theorem mem_objSet (obj : Warnings) (key : String) (value : List JSVal)
    (e : String × List JSVal) (h : e ∈ objSet obj key value) :
    e ∈ obj ∨ e = (key, value) := by
  induction obj with
  | nil => simpa [objSet] using h
  | cons p rest ih =>
    obtain ⟨k, v⟩ := p
    by_cases hk : k = key
    · simp only [objSet, hk, if_true, List.mem_cons] at h
      rcases h with h | h
      · exact Or.inr h
      · exact Or.inl (List.mem_cons_of_mem _ h)
    · simp only [objSet, hk, if_false, List.mem_cons] at h
      rcases h with h | h
      · exact Or.inl (h ▸ List.mem_cons_self _ _)
      · rcases ih h with h | h
        · exact Or.inl (List.mem_cons_of_mem _ h)
        · exact Or.inr h

theorem mem_rawKeys_objSet (obj : Warnings) (key : String) (value : List JSVal)
    (k : String) : k ∈ rawKeys (objSet obj key value) ↔ (k ∈ rawKeys obj ∨ k = key) := by
  induction obj with
  | nil => simp [objSet, rawKeys]
  | cons p rest ih =>
    obtain ⟨k1, v1⟩ := p
    unfold rawKeys at ih ⊢
    by_cases hk : k1 = key
    · subst hk
      simp only [objSet, if_true, List.map_cons, List.mem_cons]
      tauto
    · simp only [objSet, hk, if_false, List.map_cons, List.mem_cons, ih]
      tauto

theorem objGet_objSet_self (obj : Warnings) (key : String) (value : List JSVal) :
    objGet (objSet obj key value) key = some value := by
  induction obj with
  | nil => simp [objSet, objGet]
  | cons p rest ih =>
    obtain ⟨k1, v1⟩ := p
    by_cases hk : k1 = key
    · simp [objSet, objGet, hk]
    · simp [objSet, objGet, hk, ih]

theorem objGet_objSet_ne (obj : Warnings) (key : String) (value : List JSVal)
    (k : String) (hne : k ≠ key) : objGet (objSet obj key value) k = objGet obj k := by
  induction obj with
  | nil => simp [objSet, objGet, Ne.symm hne]
  | cons p rest ih =>
    obtain ⟨k1, v1⟩ := p
    by_cases hk : k1 = key
    · subst hk
      simp [objSet, objGet, Ne.symm hne]
    · by_cases hk1 : k1 = k
      · subst hk1
        simp [objSet, objGet, hk]
      · simp [objSet, objGet, hk, hk1, ih]

theorem objGet_eq_none_iff (obj : Warnings) (k : String) :
    objGet obj k = none ↔ k ∉ rawKeys obj := by
  induction obj with
  | nil => simp [objGet, rawKeys]
  | cons p rest ih =>
    obtain ⟨k1, v1⟩ := p
    unfold rawKeys at ih ⊢
    by_cases hk1 : k1 = k
    · simp [objGet, hk1]
    · simp [objGet, hk1, ih, Ne.symm hk1]

theorem objGet_some_mem (obj : Warnings) (k : String) (v : List JSVal)
    (h : objGet obj k = some v) : (k, v) ∈ obj := by
  induction obj with
  | nil => simp [objGet] at h
  | cons p rest ih =>
    obtain ⟨k1, v1⟩ := p
    by_cases hk1 : k1 = k
    · simp only [objGet, hk1, if_true, Option.some.injEq] at h
      simp [hk1, h]
    · simp only [objGet, hk1, if_false] at h
      exact List.mem_cons_of_mem _ (ih h)

theorem mem_objKeys_iff (obj : Warnings) (k : String) :
    k ∈ objKeys obj ↔ (k ∈ rawKeys obj ∧ k ≠ "__proto__") := by
  unfold objKeys
  simp only [List.mem_append, List.mem_insertionSort, List.mem_filter]
  cases h : arrayIndex k <;> simp [h]

theorem rawKeys_of_mem_objKeys (obj : Warnings) (k : String) (h : k ∈ objKeys obj) :
    k ∈ rawKeys obj :=
  ((mem_objKeys_iff obj k).mp h).1

theorem not_mem_objKeys (obj : Warnings) (k : String) (h : k ∉ rawKeys obj) :
    k ∉ objKeys obj :=
  fun hk => h (rawKeys_of_mem_objKeys obj k hk)

theorem objKeys_nodup (obj : Warnings) (h : (rawKeys obj).Nodup) : (objKeys obj).Nodup := by
  unfold objKeys
  have hown : ((rawKeys obj).filter (fun k => k != "__proto__")).Nodup := h.filter _
  rw [List.nodup_append]
  refine ⟨?_, hown.filter _, ?_⟩
  · exact (List.perm_insertionSort _ _).nodup_iff.mpr (hown.filter _)
  · intro k hk1 hk2
    rw [List.mem_insertionSort, List.mem_filter] at hk1
    rw [List.mem_filter] at hk2
    cases hidx : arrayIndex k
    · simp [hidx] at hk1
    · simp [hidx] at hk2

theorem objGet_of_mem_objKeys (obj : Warnings) (k : String) (h : k ∈ objKeys obj) :
    ∃ v, objGet obj k = some v := by
  cases hg : objGet obj k with
  | none => exact absurd (rawKeys_of_mem_objKeys obj k h) ((objGet_eq_none_iff obj k).mp hg)
  | some v => exact ⟨v, rfl⟩

theorem mem_objEntries (obj : Warnings) (e : String × List JSVal) :
    e ∈ objEntries obj ↔ (e.1 ∈ objKeys obj ∧ objGet obj e.1 = some e.2) := by
  obtain ⟨k, v⟩ := e
  unfold objEntries
  simp only [List.mem_filterMap, Option.map_eq_some']
  constructor
  · rintro ⟨k1, hk1, v1, hv1, heq⟩
    cases heq
    exact ⟨hk1, hv1⟩
  · rintro ⟨hk, hv⟩
    exact ⟨k, hk, v, hv, rfl⟩

/-! ### The loop of `getOverlapWarnings` -/

theorem warnStep_pos (parse : String → Option Int) (tasks : List Task) (w : Warnings)
    (x : Task) (h : reportsConflicts parse tasks x) :
    warnStep parse tasks w x
      = objSet w (toPropertyKey x.id) (findOverlappingTasks parse x tasks) := by
  obtain ⟨hd, hne⟩ := h
  unfold hasDates at hd
  have hlen : (findOverlappingTasks parse x tasks).length > 0 :=
    List.length_pos.mpr hne
  simp [warnStep, hd, hlen]

theorem warnStep_neg (parse : String → Option Int) (tasks : List Task) (w : Warnings)
    (x : Task) (h : ¬ reportsConflicts parse tasks x) :
    warnStep parse tasks w x = w := by
  unfold warnStep
  by_cases hd : (toBoolean x.startDate && toBoolean x.endDate) = true
  · have hnil : findOverlappingTasks parse x tasks = [] := by
      by_contra hne
      exact h ⟨hd, hne⟩
    simp [hd, hnil]
  · simp [hd]

theorem mem_rawKeys_foldl (parse : String → Option Int) (tasks l : List Task)
    (acc : Warnings) (k : String) :
    k ∈ rawKeys (l.foldl (warnStep parse tasks) acc) ↔
      (k ∈ rawKeys acc ∨ ∃ x ∈ l, toPropertyKey x.id = k ∧ reportsConflicts parse tasks x) := by
  induction l generalizing acc with
  | nil => simp
  | cons y rest ih =>
    rw [List.foldl_cons, ih]
    by_cases hy : reportsConflicts parse tasks y
    · rw [warnStep_pos parse tasks acc y hy, mem_rawKeys_objSet]
      constructor
      · rintro ((h | h) | ⟨x, hx, h⟩)
        · exact Or.inl h
        · exact Or.inr ⟨y, List.mem_cons_self _ _, h.symm, hy⟩
        · exact Or.inr ⟨x, List.mem_cons_of_mem _ hx, h⟩
      · rintro (h | ⟨x, hx, hk, hr⟩)
        · exact Or.inl (Or.inl h)
        · rcases List.mem_cons.mp hx with rfl | hx
          · exact Or.inl (Or.inr hk.symm)
          · exact Or.inr ⟨x, hx, hk, hr⟩
    · rw [warnStep_neg parse tasks acc y hy]
      constructor
      · rintro (h | ⟨x, hx, h⟩)
        · exact Or.inl h
        · exact Or.inr ⟨x, List.mem_cons_of_mem _ hx, h⟩
      · rintro (h | ⟨x, hx, hk, hr⟩)
        · exact Or.inl h
        · rcases List.mem_cons.mp hx with rfl | hx
          · exact absurd hr hy
          · exact Or.inr ⟨x, hx, hk, hr⟩

theorem mem_foldl_entries (parse : String → Option Int) (tasks l : List Task)
    (acc : Warnings) (e : String × List JSVal)
    (h : e ∈ l.foldl (warnStep parse tasks) acc) :
    e ∈ acc ∨ ∃ x ∈ l, reportsConflicts parse tasks x
      ∧ e = (toPropertyKey x.id, findOverlappingTasks parse x tasks) := by
  induction l generalizing acc with
  | nil => exact Or.inl h
  | cons y rest ih =>
    rw [List.foldl_cons] at h
    rcases ih _ h with h1 | ⟨x, hx, hr, he⟩
    · by_cases hy : reportsConflicts parse tasks y
      · rw [warnStep_pos parse tasks acc y hy] at h1
        rcases mem_objSet _ _ _ _ h1 with h2 | h2
        · exact Or.inl h2
        · exact Or.inr ⟨y, List.mem_cons_self _ _, hy, h2⟩
      · rw [warnStep_neg parse tasks acc y hy] at h1
        exact Or.inl h1
    · exact Or.inr ⟨x, List.mem_cons_of_mem _ hx, hr, he⟩

theorem objGet_foldl_untouched (parse : String → Option Int) (tasks l : List Task)
    (acc : Warnings) (k : String)
    (h : ∀ x ∈ l, toPropertyKey x.id ≠ k) :
    objGet (l.foldl (warnStep parse tasks) acc) k = objGet acc k := by
  induction l generalizing acc with
  | nil => rfl
  | cons y rest ih =>
    rw [List.foldl_cons, ih _ (fun x hx => h x (List.mem_cons_of_mem _ hx))]
    by_cases hy : reportsConflicts parse tasks y
    · rw [warnStep_pos parse tasks acc y hy]
      exact objGet_objSet_ne _ _ _ _ (Ne.symm (h y (List.mem_cons_self _ _)))
    · rw [warnStep_neg parse tasks acc y hy]

theorem objGet_foldl_pos (parse : String → Option Int) (tasks l : List Task)
    (acc : Warnings) (hl : (l.map (fun t => toPropertyKey t.id)).Nodup)
    (x : Task) (hx : x ∈ l) (hr : reportsConflicts parse tasks x) :
    objGet (l.foldl (warnStep parse tasks) acc) (toPropertyKey x.id)
      = some (findOverlappingTasks parse x tasks) := by
  induction l generalizing acc with
  | nil => simp at hx
  | cons y rest ih =>
    rw [List.map_cons, List.nodup_cons] at hl
    rw [List.foldl_cons]
    rcases List.mem_cons.mp hx with rfl | hx
    · rw [objGet_foldl_untouched, warnStep_pos parse tasks acc x hr, objGet_objSet_self]
      intro z hz hk
      exact hl.1 (List.mem_map.mpr ⟨z, hz, hk⟩)
    · exact ih _ hl.2 hx

theorem objGet_getOverlapWarnings (parse : String → Option Int) (tasks : List Task)
    (hu : uniqueIds tasks) (x : Task) (hx : x ∈ tasks)
    (hr : reportsConflicts parse tasks x) :
    objGet (getOverlapWarnings parse tasks) (toPropertyKey x.id)
      = some (findOverlappingTasks parse x tasks) :=
  objGet_foldl_pos parse tasks tasks [] hu x hx hr

theorem mem_rawKeys_getOverlapWarnings (parse : String → Option Int) (tasks : List Task)
    (k : String) :
    k ∈ rawKeys (getOverlapWarnings parse tasks) ↔
      ∃ x ∈ tasks, toPropertyKey x.id = k ∧ reportsConflicts parse tasks x := by
  unfold getOverlapWarnings
  rw [mem_rawKeys_foldl]
  simp [rawKeys]

theorem uniqueIds_eq_of_key (tasks : List Task) (hu : uniqueIds tasks) (x y : Task)
    (hx : x ∈ tasks) (hy : y ∈ tasks) (h : toPropertyKey x.id = toPropertyKey y.id) :
    x = y :=
  List.inj_on_of_nodup_map hu hx hy h

theorem uniqueIds_of_strings (tasks : List Task)
    (hs : ∀ t ∈ tasks, ∃ s, t.id = JSVal.str s)
    (hn : (tasks.map (fun t => t.id)).Nodup) : uniqueIds tasks := by
  unfold uniqueIds
  have hmap : tasks.map (fun t => toPropertyKey t.id)
      = (tasks.map (fun t => t.id)).map toPropertyKey := by
    rw [List.map_map]
    rfl
  rw [hmap]
  refine List.Nodup.map_on ?_ hn
  intro a ha b hb hab
  obtain ⟨x, hx, rfl⟩ := List.mem_map.mp ha
  obtain ⟨y, hy, rfl⟩ := List.mem_map.mp hb
  obtain ⟨sx, hsx⟩ := hs x hx
  obtain ⟨sy, hsy⟩ := hs y hy
  rw [hsx, hsy] at hab ⊢
  simp only [toPropertyKey] at hab
  rw [hab]

theorem item_key_mem_iff (parse : String → Option Int) (tasks : List Task)
    (hu : uniqueIds tasks) (x : Task) (hx : x ∈ tasks) :
    toPropertyKey x.id ∈ rawKeys (getOverlapWarnings parse tasks) ↔
      reportsConflicts parse tasks x := by
  rw [mem_rawKeys_getOverlapWarnings]
  constructor
  · rintro ⟨y, hy, hk, hr⟩
    rwa [← uniqueIds_eq_of_key tasks hu y x hy hx hk]
  · intro hr
    exact ⟨x, hx, rfl, hr⟩

theorem mem_findOverlappingTasks_item (parse : String → Option Int) (tasks : List Task)
    (hu : uniqueIds tasks) (x y : Task) (hy : y ∈ tasks) :
    y.id ∈ findOverlappingTasks parse x tasks ↔
      (y.id ≠ x.id ∧ tasksOverlap parse x y = true) := by
  rw [mem_findOverlappingTasks]
  constructor
  · rintro ⟨t, ht, hid, hne, _, hov⟩
    have hty : t = y := uniqueIds_eq_of_key tasks hu t y ht hy (by rw [hid])
    subst hty
    exact ⟨hne, hov⟩
  · rintro ⟨hne, hov⟩
    exact ⟨y, hy, rfl, hne, (tasksOverlap_hasDates parse x y hov).2, hov⟩

theorem listedUnder_iff (parse : String → Option Int) (tasks : List Task)
    (hu : uniqueIds tasks) (x y : Task) (hx : x ∈ tasks) (hy : y ∈ tasks) :
    listedUnder (getOverlapWarnings parse tasks) x.id y.id ↔
      (y.id ≠ x.id ∧ tasksOverlap parse x y = true) := by
  constructor
  · rintro ⟨ids, hget, hmem⟩
    have hkey : toPropertyKey x.id ∈ rawKeys (getOverlapWarnings parse tasks) := by
      rw [← not_not (a := _ ∈ _), ← objGet_eq_none_iff, hget]
      simp
    have hr := (item_key_mem_iff parse tasks hu x hx).mp hkey
    rw [objGet_getOverlapWarnings parse tasks hu x hx hr] at hget
    cases hget
    exact (mem_findOverlappingTasks_item parse tasks hu x y hy).mp hmem
  · intro h
    have hmem := (mem_findOverlappingTasks_item parse tasks hu x y hy).mpr h
    have hr : reportsConflicts parse tasks x :=
      ⟨(tasksOverlap_hasDates parse x y h.2).1, List.ne_nil_of_mem hmem⟩
    exact ⟨_, objGet_getOverlapWarnings parse tasks hu x hx hr, hmem⟩

/-! ### The pairwise check on valid and on invalid dates -/

theorem tasksOverlap_unfold (parse : String → Option Int) (a b : Task) :
    tasksOverlap parse a b
      = datesOverlap parse a.startDate a.endDate b.startDate b.endDate := by
  unfold tasksOverlap datesOverlap
  cases toBoolean a.startDate <;> cases toBoolean a.endDate <;>
    cases toBoolean b.startDate <;> cases toBoolean b.endDate <;> simp

theorem tasksOverlap_iff_of_dateAt (parse : String → Option Int) (a b : Task)
    (sa ea sb eb : Int)
    (h1 : dateAt parse a.startDate sa) (h2 : dateAt parse a.endDate ea)
    (h3 : dateAt parse b.startDate sb) (h4 : dateAt parse b.endDate eb) :
    tasksOverlap parse a b = true ↔ (sa ≤ eb ∧ sb ≤ ea) := by
  rw [tasksOverlap_unfold]
  simp [datesOverlap, h1.1, h2.1, h3.1, h4.1, h1.2, h2.2, h3.2, h4.2, dateLe]

theorem dateLe_none_left (b : Option Int) : dateLe none b = false := by
  cases b <;> rfl

theorem dateLe_none_right (a : Option Int) : dateLe a none = false := by
  cases a <;> rfl

theorem tasksOverlap_of_invalid (parse : String → Option Int) (x t : Task)
    (hx : newDate parse x.startDate = none ∨ newDate parse x.endDate = none) :
    tasksOverlap parse x t = false := by
  rw [tasksOverlap_unfold]
  unfold datesOverlap
  rcases hx with h | h <;>
    simp [h, dateLe_none_left, dateLe_none_right]

theorem findOverlappingTasks_of_hasDates (parse : String → Option Int) (task : Task)
    (l : List Task) (hd : hasDates task = true) :
    findOverlappingTasks parse task l
      = (l.filter (fun t => overlapFilter parse task t)).map (fun t => t.id) := by
  unfold hasDates at hd
  unfold findOverlappingTasks
  cases h1 : toBoolean task.startDate <;> cases h2 : toBoolean task.endDate <;>
    simp [h1, h2] at hd ⊢

theorem findOverlappingTasks_of_not_hasDates (parse : String → Option Int) (task : Task)
    (l : List Task) (hd : hasDates task = false) :
    findOverlappingTasks parse task l = [] := by
  unfold hasDates at hd
  unfold findOverlappingTasks
  cases h1 : toBoolean task.startDate <;> cases h2 : toBoolean task.endDate <;>
    simp [h1, h2] at hd ⊢

theorem findOverlappingTasks_eq_nil_of_no_overlap (parse : String → Option Int)
    (task : Task) (l : List Task) (h : ∀ t ∈ l, tasksOverlap parse task t = false) :
    findOverlappingTasks parse task l = [] := by
  rw [List.eq_nil_iff_forall_not_mem]
  intro i hi
  obtain ⟨t, ht, _, _, _, hov⟩ := (mem_findOverlappingTasks parse task l i).mp hi
  rw [h t ht] at hov
  exact Bool.false_ne_true hov

/-! ### The detector on arbitrary elements -/

theorem Elem.read_ok (e : Elem) (field : Field) (h : e.isNullish = false) :
    e.read field = .ok (e.asTask.get field) := by
  cases e with
  | object t => rfl
  | primitive v =>
    cases v <;> cases field <;> first | rfl | simp [Elem.isNullish] at h

theorem Elem.read_error (e : Elem) (field : Field) (h : e.isNullish = true) :
    e.read field = .error .typeError := by
  cases e with
  | object t => simp [Elem.isNullish] at h
  | primitive v => cases v <;> first | rfl | simp [Elem.isNullish] at h

theorem ok_bind {α β : Type} (x : α) (f : α → Except JSError β) :
    (Except.ok x >>= f) = f x := rfl

theorem error_bind {α β : Type} (e : JSError) (f : α → Except JSError β) :
    ((Except.error e : Except JSError α) >>= f) = Except.error e := rfl

theorem tasksOverlapE_ok (parse : String → Option Int) (a b : Elem)
    (ha : a.isNullish = false) (hb : b.isNullish = false) :
    tasksOverlapE parse a b = .ok (tasksOverlap parse a.asTask b.asTask) := by
  unfold tasksOverlapE tasksOverlap
  simp only [Elem.read_ok a _ ha, Elem.read_ok b _ hb, ok_bind, Task.get]
  cases toBoolean a.asTask.startDate <;> cases toBoolean a.asTask.endDate <;>
    cases toBoolean b.asTask.startDate <;> cases toBoolean b.asTask.endDate <;> rfl

theorem overlapFilterE_ok (parse : String → Option Int) (a t : Elem)
    (ha : a.isNullish = false) (ht : t.isNullish = false) :
    overlapFilterE parse a t = .ok (overlapFilter parse a.asTask t.asTask) := by
  unfold overlapFilterE overlapFilter
  simp only [Elem.read_ok a _ ha, Elem.read_ok t _ ht, ok_bind, Task.get,
    tasksOverlapE_ok parse a t ha ht]
  cases strictEq t.asTask.id a.asTask.id <;> cases toBoolean t.asTask.startDate <;>
    cases toBoolean t.asTask.endDate <;> rfl

theorem filterE_ok {α : Type} (p : α → Except JSError Bool) (q : α → Bool) (l : List α)
    (h : ∀ x ∈ l, p x = .ok (q x)) : filterE p l = .ok (l.filter q) := by
  induction l with
  | nil => rfl
  | cons x xs ih =>
    have hx := h x (List.mem_cons_self _ _)
    have hxs := ih (fun y hy => h y (List.mem_cons_of_mem _ hy))
    simp only [filterE, hx, hxs, ok_bind, List.filter_cons]
    cases q x <;> rfl

theorem mapE_ok {α β : Type} (f : α → Except JSError β) (g : α → β) (l : List α)
    (h : ∀ x ∈ l, f x = .ok (g x)) : mapE f l = .ok (l.map g) := by
  induction l with
  | nil => rfl
  | cons x xs ih =>
    have hx := h x (List.mem_cons_self _ _)
    have hxs := ih (fun y hy => h y (List.mem_cons_of_mem _ hy))
    simp only [mapE, hx, hxs, ok_bind, List.map_cons]
    rfl

theorem findOverlappingTasksE_ok (parse : String → Option Int) (a : Elem) (l : List Elem)
    (ha : a.isNullish = false) (hl : ∀ e ∈ l, e.isNullish = false) :
    findOverlappingTasksE parse a l
      = .ok (findOverlappingTasks parse a.asTask (l.map Elem.asTask)) := by
  unfold findOverlappingTasksE findOverlappingTasks
  have hf := filterE_ok (fun t => overlapFilterE parse a t)
    (fun t => overlapFilter parse a.asTask t.asTask) l
    (fun t ht => overlapFilterE_ok parse a t ha (hl t ht))
  have hm := mapE_ok (fun t : Elem => t.read .id) (fun t => t.asTask.id)
    (l.filter (fun t => overlapFilter parse a.asTask t.asTask))
    (fun t ht => Elem.read_ok t _ (hl t (List.mem_of_mem_filter ht)))
  simp only [Elem.read_ok a _ ha, ok_bind, hf, hm, Task.get]
  cases toBoolean a.asTask.startDate <;> cases toBoolean a.asTask.endDate <;>
    simp [List.filter_map, Function.comp_def] <;> rfl

theorem warnStepE_ok (parse : String → Option Int) (a : Elem) (l : List Elem) (w : Warnings)
    (ha : a.isNullish = false) (hl : ∀ e ∈ l, e.isNullish = false) :
    warnStepE parse l w a = .ok (warnStep parse (l.map Elem.asTask) w a.asTask) := by
  unfold warnStepE warnStep
  simp only [Elem.read_ok a _ ha, ok_bind, findOverlappingTasksE_ok parse a l ha hl, Task.get]
  cases toBoolean a.asTask.startDate <;> cases toBoolean a.asTask.endDate <;> try rfl
  by_cases hlen : (findOverlappingTasks parse a.asTask (l.map Elem.asTask)).length > 0
  · simp [hlen]
    rfl
  · simp [hlen]
    rfl

theorem warnStepE_error (parse : String → Option Int) (a : Elem) (l : List Elem) (w : Warnings)
    (ha : a.isNullish = true) : warnStepE parse l w a = .error .typeError := by
  unfold warnStepE
  simp only [Elem.read_error a _ ha, error_bind]

theorem foldlM_warnStepE_ok (parse : String → Option Int) (l l1 : List Elem) (acc : Warnings)
    (hl : ∀ e ∈ l, e.isNullish = false) (hl1 : ∀ e ∈ l1, e.isNullish = false) :
    l1.foldlM (warnStepE parse l) acc
      = .ok ((l1.map Elem.asTask).foldl (warnStep parse (l.map Elem.asTask)) acc) := by
  induction l1 generalizing acc with
  | nil => rfl
  | cons y rest ih =>
    rw [List.foldlM_cons, warnStepE_ok parse y l acc (hl1 y (List.mem_cons_self _ _)) hl,
      ok_bind, ih _ (fun e he => hl1 e (List.mem_cons_of_mem _ he))]
    rfl

theorem foldlM_warnStepE_error (parse : String → Option Int) (l l1 : List Elem)
    (acc : Warnings) (h : ∃ e ∈ l1, e.isNullish = true) :
    l1.foldlM (warnStepE parse l) acc = .error .typeError := by
  induction l1 generalizing acc with
  | nil => simp at h
  | cons y rest ih =>
    rw [List.foldlM_cons]
    cases hy : warnStepE parse l acc y with
    | error err =>
      cases err
      rfl
    | ok acc1 =>
      rw [ok_bind]
      apply ih
      obtain ⟨e, he, hn⟩ := h
      rcases List.mem_cons.mp he with rfl | he
      · rw [warnStepE_error parse e l acc hn] at hy
        cases hy
      · exact ⟨e, he, hn⟩


theorem getOverlapWarningsE_error (parse : String → Option Int) (elems : List Elem)
    (h : ∃ e ∈ elems, e.isNullish = true) :
    getOverlapWarningsE parse elems = .error .typeError :=
  foldlM_warnStepE_error parse elems elems [] h

/-! ### Repeated keys, sub-collections and the run on a state -/

theorem objGet_foldl_no_writer (parse : String → Option Int) (tasks l : List Task)
    (acc : Warnings) (k : String)
    (h : ∀ x ∈ l, reportsConflicts parse tasks x → toPropertyKey x.id ≠ k) :
    objGet (l.foldl (warnStep parse tasks) acc) k = objGet acc k := by
  induction l generalizing acc with
  | nil => rfl
  | cons y rest ih =>
    rw [List.foldl_cons, ih _ (fun x hx => h x (List.mem_cons_of_mem _ hx))]
    by_cases hy : reportsConflicts parse tasks y
    · rw [warnStep_pos parse tasks acc y hy]
      exact objGet_objSet_ne _ _ _ _ (Ne.symm (h y (List.mem_cons_self _ _) hy))
    · rw [warnStep_neg parse tasks acc y hy]

theorem rawKeys_objSet_nodup (obj : Warnings) (key : String) (value : List JSVal)
    (h : (rawKeys obj).Nodup) : (rawKeys (objSet obj key value)).Nodup := by
  induction obj with
  | nil => simp [objSet, rawKeys]
  | cons p rest ih =>
    obtain ⟨k1, v1⟩ := p
    have h1 : k1 ∉ rawKeys rest ∧ (rawKeys rest).Nodup := by
      simpa [rawKeys] using h
    by_cases hk : k1 = key
    · subst hk
      simpa [objSet, rawKeys] using h
    · have hmem : k1 ∉ rawKeys (objSet rest key value) := by
        rw [mem_rawKeys_objSet]
        rintro (hm | hm)
        · exact h1.1 hm
        · exact hk hm
      have hn := ih h1.2
      simp only [objSet, hk, if_false]
      unfold rawKeys at hmem hn ⊢
      rw [List.map_cons, List.nodup_cons]
      exact ⟨hmem, hn⟩

theorem rawKeys_foldl_nodup (parse : String → Option Int) (tasks l : List Task)
    (acc : Warnings) (h : (rawKeys acc).Nodup) :
    (rawKeys (l.foldl (warnStep parse tasks) acc)).Nodup := by
  induction l generalizing acc with
  | nil => exact h
  | cons y rest ih =>
    rw [List.foldl_cons]
    apply ih
    by_cases hy : reportsConflicts parse tasks y
    · rw [warnStep_pos parse tasks acc y hy]
      exact rawKeys_objSet_nodup _ _ _ h
    · rw [warnStep_neg parse tasks acc y hy]
      exact h

theorem objGet_last_writer (parse : String → Option Int) (before after : List Task)
    (x : Task) (hx : reportsConflicts parse (before ++ x :: after) x)
    (hlast : ∀ z ∈ after, reportsConflicts parse (before ++ x :: after) z →
      toPropertyKey z.id ≠ toPropertyKey x.id) :
    objGet (getOverlapWarnings parse (before ++ x :: after)) (toPropertyKey x.id)
      = some (findOverlappingTasks parse x (before ++ x :: after)) := by
  unfold getOverlapWarnings
  rw [List.foldl_append, List.foldl_cons,
    objGet_foldl_no_writer parse _ after _ _ hlast, warnStep_pos parse _ _ x hx,
    objGet_objSet_self]

theorem findOverlappingTasks_sublist (parse : String → Option Int) (x : Task)
    (sub tasks : List Task) (h : sub.Sublist tasks) :
    (findOverlappingTasks parse x sub).Sublist (findOverlappingTasks parse x tasks) := by
  cases hd : hasDates x
  · rw [findOverlappingTasks_of_not_hasDates parse x sub hd,
      findOverlappingTasks_of_not_hasDates parse x tasks hd]
  · rw [findOverlappingTasks_of_hasDates parse x sub hd,
      findOverlappingTasks_of_hasDates parse x tasks hd]
    exact (h.filter _).map _

theorem uniqueIds_sublist (sub tasks : List Task) (h : sub.Sublist tasks)
    (hu : uniqueIds tasks) : uniqueIds sub := by
  unfold uniqueIds at hu ⊢
  exact hu.sublist (h.map _)

theorem objGet_getOverlapWarnings_some (parse : String → Option Int) (tasks : List Task)
    (hu : uniqueIds tasks) (k : String) (v : List JSVal)
    (h : objGet (getOverlapWarnings parse tasks) k = some v) :
    ∃ x ∈ tasks, toPropertyKey x.id = k ∧ reportsConflicts parse tasks x
      ∧ v = findOverlappingTasks parse x tasks := by
  have hkey : k ∈ rawKeys (getOverlapWarnings parse tasks) := by
    by_contra hn
    rw [(objGet_eq_none_iff _ _).mpr hn] at h
    cases h
  obtain ⟨x, hx, hk, hr⟩ := (mem_rawKeys_getOverlapWarnings parse tasks k).mp hkey
  refine ⟨x, hx, hk, hr, ?_⟩
  rw [← hk, objGet_getOverlapWarnings parse tasks hu x hx hr] at h
  cases h
  rfl

theorem foldl_forEachStep (parse : String → Option Int) (l : List Task) (st : DetectorState) :
    l.foldl (forEachStep parse) st
      = { tasks := st.tasks, warnings := l.foldl (warnStep parse st.tasks) st.warnings } := by
  induction l generalizing st with
  | nil => rfl
  | cons y rest ih =>
    rw [List.foldl_cons, ih]
    rfl

/-! ### The map as a list, and the tasks kept by the overlap filter -/

theorem objSet_of_not_mem (obj : Warnings) (key : String) (value : List JSVal)
    (h : key ∉ rawKeys obj) : objSet obj key value = obj ++ [(key, value)] := by
  induction obj with
  | nil => rfl
  | cons p rest ih =>
    obtain ⟨k1, v1⟩ := p
    have h1 : k1 ≠ key ∧ key ∉ rawKeys rest := by
      constructor
      · intro hk
        exact h (by simp [rawKeys, hk])
      · intro hk
        exact h (by
          unfold rawKeys at hk ⊢
          exact List.mem_cons_of_mem _ hk)
    simp [objSet, h1.1, ih h1.2]

theorem foldl_warnStep_eq_append (parse : String → Option Int) (tasks l : List Task)
    (acc : Warnings) (hl : (l.map (fun t => toPropertyKey t.id)).Nodup)
    (hacc : ∀ x ∈ l, toPropertyKey x.id ∉ rawKeys acc) :
    l.foldl (warnStep parse tasks) acc
      = acc ++ (l.filter (fun x => decide (reportsConflicts parse tasks x))).map
          (fun x => (toPropertyKey x.id, findOverlappingTasks parse x tasks)) := by
  induction l generalizing acc with
  | nil => simp
  | cons y rest ih =>
    rw [List.map_cons, List.nodup_cons] at hl
    rw [List.foldl_cons]
    by_cases hy : reportsConflicts parse tasks y
    · rw [warnStep_pos parse tasks acc y hy,
        objSet_of_not_mem _ _ _ (hacc y (List.mem_cons_self _ _)), ih _ hl.2]
      · simp [List.filter_cons, hy]
      · intro x hx hk
        have hk2 : toPropertyKey x.id ∈ rawKeys acc ∨ toPropertyKey x.id = toPropertyKey y.id := by
          simpa [rawKeys] using hk
        rcases hk2 with hk2 | hk2
        · exact hacc x (List.mem_cons_of_mem _ hx) hk2
        · exact hl.1 (List.mem_map.mpr ⟨x, hx, hk2⟩)
    · rw [warnStep_neg parse tasks acc y hy,
        ih _ hl.2 (fun x hx => hacc x (List.mem_cons_of_mem _ hx))]
      simp [List.filter_cons, hy]

theorem getOverlapWarnings_eq_map (parse : String → Option Int) (tasks : List Task)
    (hu : uniqueIds tasks) :
    getOverlapWarnings parse tasks
      = (tasks.filter (fun x => decide (reportsConflicts parse tasks x))).map
          (fun x => (toPropertyKey x.id, findOverlappingTasks parse x tasks)) := by
  unfold getOverlapWarnings
  rw [foldl_warnStep_eq_append parse tasks tasks [] hu (by simp [rawKeys])]
  simp

theorem reportsConflicts_of_overlapFilter (parse : String → Option Int) (tasks : List Task)
    (x t : Task) (hx : x ∈ tasks) (h : overlapFilter parse x t = true) :
    reportsConflicts parse tasks t := by
  obtain ⟨hne, hd, hov⟩ := (overlapFilter_iff parse x t).mp h
  refine ⟨hd, List.ne_nil_of_mem (a := x.id) ?_⟩
  rw [mem_findOverlappingTasks]
  exact ⟨x, hx, rfl, fun h => hne h.symm, (tasksOverlap_hasDates parse x t hov).1,
    by rw [tasksOverlap_comm]; exact hov⟩

theorem findOverlappingTasks_filter (parse : String → Option Int) (tasks : List Task)
    (p : Task → Bool)
    (hp : ∀ t ∈ tasks, reportsConflicts parse tasks t → p t = true)
    (x : Task) (hx : x ∈ tasks) :
    findOverlappingTasks parse x (tasks.filter p) = findOverlappingTasks parse x tasks := by
  cases hd : hasDates x
  · rw [findOverlappingTasks_of_not_hasDates parse x _ hd,
      findOverlappingTasks_of_not_hasDates parse x _ hd]
  · rw [findOverlappingTasks_of_hasDates parse x _ hd,
      findOverlappingTasks_of_hasDates parse x _ hd, List.filter_filter]
    congr 1
    apply List.filter_congr
    intro t ht
    by_cases hf : overlapFilter parse x t = true
    · simp [hf, hp t ht (reportsConflicts_of_overlapFilter parse tasks x t hx hf)]
    · simp [hf]

theorem reportsConflicts_filter_iff (parse : String → Option Int) (tasks : List Task)
    (p : Task → Bool)
    (hp : ∀ t ∈ tasks, reportsConflicts parse tasks t → p t = true)
    (x : Task) (hx : x ∈ tasks) :
    reportsConflicts parse (tasks.filter p) x ↔ reportsConflicts parse tasks x := by
  unfold reportsConflicts
  rw [findOverlappingTasks_filter parse tasks p hp x hx]

theorem getOverlapWarnings_filter (parse : String → Option Int) (tasks : List Task)
    (hu : uniqueIds tasks) (p : Task → Bool)
    (hp : ∀ t ∈ tasks, reportsConflicts parse tasks t → p t = true) :
    getOverlapWarnings parse (tasks.filter p) = getOverlapWarnings parse tasks := by
  have hsub : (tasks.filter p).Sublist tasks := List.filter_sublist _
  rw [getOverlapWarnings_eq_map parse _ (uniqueIds_sublist _ _ hsub hu),
    getOverlapWarnings_eq_map parse tasks hu]
  have hfilter : (tasks.filter p).filter
        (fun x => decide (reportsConflicts parse (tasks.filter p) x))
      = tasks.filter (fun x => decide (reportsConflicts parse tasks x)) := by
    rw [List.filter_filter]
    apply List.filter_congr
    intro x hx
    by_cases hr : reportsConflicts parse tasks x
    · simp [hr, hp x hx hr, (reportsConflicts_filter_iff parse tasks p hp x hx).mpr hr]
    · have hr2 : ¬ reportsConflicts parse (tasks.filter p) x :=
        fun h => hr ((reportsConflicts_filter_iff parse tasks p hp x hx).mp h)
      simp [hr, hr2]
  rw [hfilter]
  apply List.map_congr_left
  intro x hx
  rw [findOverlappingTasks_filter parse tasks p hp x (List.mem_filter.mp hx).1]

theorem readTruthy_of_reports (inherited : Option (List JSVal) → String → Inherited)
    (parse : String → Option Int) (tasks : List Task) (hu : uniqueIds tasks)
    (x : Task) (hx : x ∈ tasks) (hr : reportsConflicts parse tasks x) :
    readTruthy inherited (getOverlapWarnings parse tasks) (toPropertyKey x.id) = true := by
  unfold readTruthy
  rw [objGet_getOverlapWarnings parse tasks hu x hx hr]

theorem readLengthPositive_of_reports (inherited : Option (List JSVal) → String → Inherited)
    (parse : String → Option Int) (tasks : List Task) (hu : uniqueIds tasks)
    (x : Task) (hx : x ∈ tasks) (hr : reportsConflicts parse tasks x) :
    readLengthPositive inherited (getOverlapWarnings parse tasks) (toPropertyKey x.id)
      = true := by
  unfold readLengthPositive
  rw [objGet_getOverlapWarnings parse tasks hu x hx hr]
  exact decide_eq_true (List.length_pos.mpr hr.2)

theorem reports_of_readTruthy (inherited : Option (List JSVal) → String → Inherited)
    (parse : String → Option Int) (tasks : List Task) (hu : uniqueIds tasks)
    (x : Task) (hx : x ∈ tasks)
    (hread : readTruthy inherited (getOverlapWarnings parse tasks) (toPropertyKey x.id) = true)
    (hown : (inherited (objGet (getOverlapWarnings parse tasks) "__proto__")
      (toPropertyKey x.id)).truthy = false) :
    reportsConflicts parse tasks x := by
  unfold readTruthy at hread
  cases hg : objGet (getOverlapWarnings parse tasks) (toPropertyKey x.id) with
  | none =>
    rw [hg] at hread
    simp only at hread
    rw [hown] at hread
    exact absurd hread Bool.false_ne_true
  | some v =>
    apply (item_key_mem_iff parse tasks hu x hx).mp
    by_contra hn
    rw [(objGet_eq_none_iff _ _).mpr hn] at hg
    cases hg

theorem timelineFilteredTasks_no_project (inherited : Option (List JSVal) → String → Inherited)
    (parse : String → Option Int) (tasks : List Task) (sel : JSVal)
    (hsel : toBoolean sel = false) (showOverlapsOnly : Bool) :
    timelineFilteredTasks inherited parse tasks sel showOverlapsOnly
      = tasks.filter (fun t => !showOverlapsOnly
          || readTruthy inherited (getOverlapWarnings parse tasks) (toPropertyKey t.id)) := by
  unfold timelineFilteredTasks
  apply List.filter_congr
  intro x _
  simp only [hsel, Bool.false_and, Bool.false_eq_true, if_false]
  cases showOverlapsOnly <;>
    cases readTruthy inherited (getOverlapWarnings parse tasks) (toPropertyKey x.id) <;> rfl

theorem timelineChartWarnings_no_project (inherited : Option (List JSVal) → String → Inherited)
    (parse : String → Option Int) (tasks : List Task) (hu : uniqueIds tasks) (sel : JSVal)
    (hsel : toBoolean sel = false) (showOverlapsOnly : Bool) :
    timelineChartWarnings inherited parse tasks sel showOverlapsOnly
      = getOverlapWarnings parse tasks := by
  unfold timelineChartWarnings ganttOverlapWarnings ganttFilteredTasks
  simp only [hsel, Bool.false_eq_true, if_false]
  have hnull : (!toBoolean JSVal.null) = true := rfl
  rw [if_pos hnull, timelineFilteredTasks_no_project inherited parse tasks sel hsel]
  apply getOverlapWarnings_filter parse tasks hu
  intro t ht hr
  rw [readTruthy_of_reports inherited parse tasks hu t ht hr]
  simp

theorem item_objKeys_mem_iff (parse : String → Option Int) (tasks : List Task)
    (hu : uniqueIds tasks) (x : Task) (hx : x ∈ tasks)
    (hproto : toPropertyKey x.id ≠ "__proto__") :
    toPropertyKey x.id ∈ objKeys (getOverlapWarnings parse tasks) ↔
      reportsConflicts parse tasks x := by
  rw [mem_objKeys_iff, item_key_mem_iff parse tasks hu x hx]
  exact ⟨fun h => h.1, fun h => ⟨h, hproto⟩⟩

/-- The keys of the map other than in the case of the id `__proto__`: in a
collection with unique ids, the id of an item whose key is not `__proto__` is a
key of `getOverlapWarnings(items)` if and only if the item has both dates and a
non-empty conflict sequence; every key is the id of an item; and nothing stored
is an empty sequence. -/
theorem getOverlapWarnings_sparse_own (parse : String → Option Int) (items : List Task)
    (hu : uniqueIds items) :
    (∀ x ∈ items, toPropertyKey x.id ≠ "__proto__" →
        (toPropertyKey x.id ∈ objKeys (getOverlapWarnings parse items) ↔
          (hasDates x = true ∧ findOverlappingTasks parse x items ≠ [])))
      ∧ (∀ k ∈ objKeys (getOverlapWarnings parse items),
          ∃ x ∈ items, toPropertyKey x.id = k)
      ∧ (∀ e ∈ getOverlapWarnings parse items, e.2 ≠ []) := by
  refine ⟨fun x hx hproto => item_objKeys_mem_iff parse items hu x hx hproto, ?_, ?_⟩
  · intro k hk
    obtain ⟨x, hx, hkey, _⟩ :=
      (mem_rawKeys_getOverlapWarnings parse items k).mp (rawKeys_of_mem_objKeys _ _ hk)
    exact ⟨x, hx, hkey⟩
  · intro e he
    rcases mem_foldl_entries parse items items [] e he with h | ⟨y, _, hr, rfl⟩
    · simp at h
    · exact hr.2

/-- The assignments that `getOverlapWarnings([A, B, C])` makes when `A` and `B`
overlap and `C` overlaps neither, the three having distinct keys:
`warnings[A.id] = [B.id]`, then `warnings[B.id] = [A.id]`. -/
theorem getOverlapWarnings_three_assignments (parse : String → Option Int) (A B C : Task)
    (hu : uniqueIds [A, B, C])
    (hAB : tasksOverlap parse A B = true)
    (hAC : tasksOverlap parse A C = false)
    (hBC : tasksOverlap parse B C = false) :
    getOverlapWarnings parse [A, B, C]
      = [(toPropertyKey A.id, [B.id]), (toPropertyKey B.id, [A.id])] := by
  have hk : toPropertyKey A.id ≠ toPropertyKey B.id := by
    intro h
    simp [uniqueIds, h] at hu
  have hne : A.id ≠ B.id := fun h => hk (by rw [h])
  have hd := tasksOverlap_hasDates parse A B hAB
  have hBA : tasksOverlap parse B A = true := by rw [tasksOverlap_comm]; exact hAB
  have fAA : overlapFilter parse A A = false := by
    rw [Bool.eq_false_iff, ne_eq, overlapFilter_iff]
    exact fun h => h.1 rfl
  have fAB : overlapFilter parse A B = true :=
    (overlapFilter_iff parse A B).mpr ⟨fun h => hne h.symm, hd.2, hAB⟩
  have fAC : overlapFilter parse A C = false := by
    rw [Bool.eq_false_iff, ne_eq, overlapFilter_iff, hAC]
    exact fun h => Bool.false_ne_true h.2.2
  have fBA : overlapFilter parse B A = true :=
    (overlapFilter_iff parse B A).mpr ⟨hne, hd.1, hBA⟩
  have fBB : overlapFilter parse B B = false := by
    rw [Bool.eq_false_iff, ne_eq, overlapFilter_iff]
    exact fun h => h.1 rfl
  have fBC : overlapFilter parse B C = false := by
    rw [Bool.eq_false_iff, ne_eq, overlapFilter_iff, hBC]
    exact fun h => Bool.false_ne_true h.2.2
  have hA : findOverlappingTasks parse A [A, B, C] = [B.id] := by
    rw [findOverlappingTasks_of_hasDates parse A _ hd.1]
    simp [List.filter, fAA, fAB, fAC]
  have hB : findOverlappingTasks parse B [A, B, C] = [A.id] := by
    rw [findOverlappingTasks_of_hasDates parse B _ hd.2]
    simp [List.filter, fBA, fBB, fBC]
  have hC : findOverlappingTasks parse C [A, B, C] = [] := by
    rw [List.eq_nil_iff_forall_not_mem]
    intro i hi
    obtain ⟨t, ht, _, hid, _, hov⟩ := (mem_findOverlappingTasks parse C _ i).mp hi
    simp only [List.mem_cons, List.mem_singleton, List.not_mem_nil, or_false] at ht
    rcases ht with rfl | rfl | rfl
    · rw [tasksOverlap_comm, hAC] at hov
      exact Bool.false_ne_true hov
    · rw [tasksOverlap_comm, hBC] at hov
      exact Bool.false_ne_true hov
    · exact hid rfl
  have rA : reportsConflicts parse [A, B, C] A := ⟨hd.1, by rw [hA]; simp⟩
  have rB : reportsConflicts parse [A, B, C] B := ⟨hd.2, by rw [hB]; simp⟩
  have rC : ¬ reportsConflicts parse [A, B, C] C := fun h => h.2 hC
  unfold getOverlapWarnings
  simp only [List.foldl_cons, List.foldl_nil]
  rw [warnStep_pos parse _ _ A rA, warnStep_pos parse _ _ B rB, warnStep_neg parse _ _ C rC,
    hA, hB]
  simp [objSet, hk]

/-- On a host with the properties of `Object.prototype`, two tasks that overlap
nothing: the one whose id is `toString` is shown when only overlapping tasks
are shown and is not flagged by the chart; the one whose id is `constructor` is
shown and flagged (`Object.length` is 1). -/
theorem inherited_name_ids :
    getOverlapWarnings isoDateParse [toStringTask, constructorTask] = []
      ∧ timelineFilteredTasks objectPrototype isoDateParse [toStringTask, constructorTask]
          (.str "") true = [toStringTask, constructorTask]
      ∧ ganttHasOverlap objectPrototype
          (timelineChartWarnings objectPrototype isoDateParse [toStringTask, constructorTask]
            (.str "") true) toStringTask = false
      ∧ ganttHasOverlap objectPrototype
          (timelineChartWarnings objectPrototype isoDateParse [toStringTask, constructorTask]
            (.str "") true) constructorTask = true := by
  decide

/-- The item whose id is `__proto__` and that overlaps `b`: the read
`overlapWarnings['__proto__']` gives the array that became the prototype, so
the item is shown when only overlapping tasks are shown, and flagged. -/
theorem proto_id_shown_and_flagged :
    timelineFilteredTasks objectPrototype isoDateParse protoIdTasks (.str "") true
        = protoIdTasks
      ∧ ganttHasOverlap objectPrototype
          (timelineChartWarnings objectPrototype isoDateParse protoIdTasks (.str "") true)
          protoItem = true := by
  decide

theorem findTask_of_mem (tasks : List Task) (x : Task) (hx : x ∈ tasks)
    (h : ∀ y ∈ tasks, y.id = x.id → y = x) : findTask tasks x.id = some x := by
  unfold findTask
  induction tasks with
  | nil => simp at hx
  | cons y rest ih =>
    by_cases hy : y.id = x.id
    · have hyx := h y (List.mem_cons_self _ _) hy
      subst hyx
      simp [List.find?_cons, (strictEq_iff y.id y.id).mpr rfl]
    · have hs : strictEq y.id x.id = false := by
        rw [Bool.eq_false_iff, ne_eq, strictEq_iff]
        exact hy
      rw [List.find?_cons, hs]
      rcases List.mem_cons.mp hx with hxy | hx2
      · exact absurd (hxy ▸ rfl) hy
      · exact ih hx2 (fun z hz => h z (List.mem_cons_of_mem _ hz))

/-! ### The dates of the chart -/

theorem addOneDay_after (tz start e : Int) (h : addOneDay tz start = some e) : start < e := by
  unfold addOneDay timeClip at h
  simp only at h
  split at h
  · cases h
    omega
  · cases h

theorem ganttEndDate_after_start (parse : String → Option Int) (tz start : Int)
    (endDate : JSVal) (e : Int) (h : ganttEndDate parse tz start endDate = some e) :
    start < e := by
  unfold ganttEndDate at h
  simp only at h
  split at h
  · rename_i e1 _
    by_cases hc : e1 < start ∨ e1 = start
    · rw [if_pos hc] at h
      exact addOneDay_after tz start e h
    · rw [if_neg hc] at h
      cases h
      omega
  · cases h

/-! ## The date-range predicate and the pairwise check -/

/-- C1: for four present dates that parse to the time values `s1`, `e1`, `s2`,
`e2`, `datesOverlap` is true exactly when `s1 <= e2` and `s2 <= e1`.  Nothing
is assumed on the order of a range's own start and end: an inverted range is
compared as given. -/
theorem datesOverlap_iff (parse : String → Option Int)
    (start1 end1 start2 end2 : JSVal) (s1 e1 s2 e2 : Int)
    (h1 : toBoolean start1 = true) (h2 : toBoolean end1 = true)
    (h3 : toBoolean start2 = true) (h4 : toBoolean end2 = true)
    (p1 : newDate parse start1 = some s1) (p2 : newDate parse end1 = some e1)
    (p3 : newDate parse start2 = some s2) (p4 : newDate parse end2 = some e2) :
    datesOverlap parse start1 end1 start2 end2 = true ↔ (s1 ≤ e2 ∧ s2 ≤ e1) := by
  simp [datesOverlap, h1, h2, h3, h4, p1, p2, p3, p4, dateLe]

/-- The first range is inverted (5 January to 3 January 2024) and is still
reported as overlapping 1 to 10 January. -/
theorem datesOverlap_iff_witness :
    datesOverlap isoDateParse (.str "2024-01-05") (.str "2024-01-03")
        (.str "2024-01-01") (.str "2024-01-10") = true ↔
      ((1704412800000 : Int) ≤ 1704844800000 ∧ (1704067200000 : Int) ≤ 1704240000000) :=
  datesOverlap_iff isoDateParse (.str "2024-01-05") (.str "2024-01-03")
    (.str "2024-01-01") (.str "2024-01-10")
    1704412800000 1704240000000 1704067200000 1704844800000
    (by decide) (by decide) (by decide) (by decide)
    (by decide) (by decide) (by decide) (by decide)

/-- C2: when one of the four date arguments of `datesOverlap` is missing (it
is falsy, as `undefined`, `null` and the empty string are), the result is
false whatever the three others are. -/
theorem datesOverlap_missing (parse : String → Option Int)
    (start1 end1 start2 end2 : JSVal)
    (h : toBoolean start1 = false ∨ toBoolean end1 = false
      ∨ toBoolean start2 = false ∨ toBoolean end2 = false) :
    datesOverlap parse start1 end1 start2 end2 = false := by
  unfold datesOverlap
  rcases h with h | h | h | h <;> simp [h]

/-- The three kinds of missing argument, each in another position, next to
dates that would overlap. -/
theorem datesOverlap_missing_witness :
    datesOverlap isoDateParse .undefined (.str "2024-01-05")
        (.str "2024-01-01") (.str "2024-01-10") = false
    ∧ datesOverlap isoDateParse (.str "2024-01-01") .null
        (.str "2024-01-01") (.str "2024-01-10") = false
    ∧ datesOverlap isoDateParse (.str "2024-01-01") (.str "2024-01-05")
        (.str "2024-01-01") (.str "") = false :=
  ⟨datesOverlap_missing isoDateParse _ _ _ _ (Or.inl (by decide)),
   datesOverlap_missing isoDateParse _ _ _ _ (Or.inr (Or.inl (by decide))),
   datesOverlap_missing isoDateParse _ _ _ _ (Or.inr (Or.inr (Or.inr (by decide))))⟩

/-- C3: `tasksOverlap` is symmetric, `tasksOverlap(A, B)` equals
`tasksOverlap(B, A)`, for all items (so for those with valid dates). -/
theorem tasksOverlap_symmetric (parse : String → Option Int) (A B : Task) :
    tasksOverlap parse A B = tasksOverlap parse B A :=
  tasksOverlap_comm parse A B

/-! ## The conflict sequence of one item -/

/-- C4: two items `A` and `B` of a collection, with different ids, for which
`tasksOverlap(A, B)` is true (their dates are then present and valid): the id
of `B` is in `findOverlappingTasks(A, allItems)` and the id of `A` in
`findOverlappingTasks(B, allItems)`. -/
theorem findOverlappingTasks_both_directions (parse : String → Option Int)
    (allItems : List Task) (A B : Task) (hA : A ∈ allItems) (hB : B ∈ allItems)
    (hid : A.id ≠ B.id) (hov : tasksOverlap parse A B = true) :
    B.id ∈ findOverlappingTasks parse A allItems
      ∧ A.id ∈ findOverlappingTasks parse B allItems := by
  have hd := tasksOverlap_hasDates parse A B hov
  constructor
  · exact (mem_findOverlappingTasks parse A allItems B.id).mpr
      ⟨B, hB, rfl, fun h => hid h.symm, hd.2, hov⟩
  · exact (mem_findOverlappingTasks parse B allItems A.id).mpr
      ⟨A, hA, rfl, hid, hd.1, (tasksOverlap_comm parse A B) ▸ hov⟩

/-- Two tasks that touch on 5 January 2024, in a collection of two. -/
theorem findOverlappingTasks_both_directions_witness :
    JSVal.str "b" ∈ findOverlappingTasks isoDateParse
        { id := .str "a", startDate := .str "2024-01-01", endDate := .str "2024-01-05" }
        [{ id := .str "a", startDate := .str "2024-01-01", endDate := .str "2024-01-05" },
         { id := .str "b", startDate := .str "2024-01-05", endDate := .str "2024-01-10" }]
    ∧ JSVal.str "a" ∈ findOverlappingTasks isoDateParse
        { id := .str "b", startDate := .str "2024-01-05", endDate := .str "2024-01-10" }
        [{ id := .str "a", startDate := .str "2024-01-01", endDate := .str "2024-01-05" },
         { id := .str "b", startDate := .str "2024-01-05", endDate := .str "2024-01-10" }] :=
  findOverlappingTasks_both_directions isoDateParse _
    { id := .str "a", startDate := .str "2024-01-01", endDate := .str "2024-01-05" }
    { id := .str "b", startDate := .str "2024-01-05", endDate := .str "2024-01-10" }
    (by decide) (by decide) (by decide) (by decide)

/-- C6: `findOverlappingTasks(task, allTasks)` is exactly the sequence the
specification describes: the ids, in the order of `allTasks`, of the elements
whose id differs from the id of `task`, that have both dates, and that
`tasksOverlap` reports against `task`.  It holds for every target, so for
every one with both dates. -/
theorem findOverlappingTasks_eq_spec (parse : String → Option Int) (task : Task)
    (allTasks : List Task) :
    findOverlappingTasks parse task allTasks = specFindConflicts parse task allTasks := by
  unfold findOverlappingTasks
  by_cases hd : hasDates task = true
  · have hg : (!toBoolean task.startDate || !toBoolean task.endDate) = false := by
      unfold hasDates at hd
      cases h1 : toBoolean task.startDate <;> cases h2 : toBoolean task.endDate <;>
        simp [h1, h2] at hd ⊢
    simp only [hg, Bool.false_eq_true, if_false]
    induction allTasks with
    | nil => rfl
    | cons t rest ih =>
      by_cases hf : overlapFilter parse task t = true
      · have hs := (overlapFilter_iff parse task t).mp hf
        simp [List.filter_cons, hf, specFindConflicts, hs, ih]
      · have hs : ¬ (t.id ≠ task.id ∧ hasDates t = true ∧ tasksOverlap parse task t = true) :=
          fun h => hf ((overlapFilter_iff parse task t).mpr h)
        simp only [List.filter_cons, hf, specFindConflicts, if_neg hs]
        simpa using ih
  · have hg : (!toBoolean task.startDate || !toBoolean task.endDate) = true := by
      unfold hasDates at hd
      cases h1 : toBoolean task.startDate <;> cases h2 : toBoolean task.endDate <;>
        simp [h1, h2] at hd ⊢
    simp only [hg, if_true]
    induction allTasks with
    | nil => rfl
    | cons t rest ih =>
      have hno : ¬ (t.id ≠ task.id ∧ hasDates t = true ∧ tasksOverlap parse task t = true) :=
        fun h => hd (tasksOverlap_hasDates parse task t h.2.2).1
      simp only [specFindConflicts, hno, if_false]
      exact ih

/-- C7: the id of an item never appears in its own conflict sequence, whatever
the collection is (with the item or without it, with repeated ids or not). -/
theorem findOverlappingTasks_not_self (parse : String → Option Int) (A : Task)
    (allItems : List Task) : A.id ∉ findOverlappingTasks parse A allItems := by
  intro h
  obtain ⟨t, _, hid, hne, _⟩ := (mem_findOverlappingTasks parse A allItems A.id).mp h
  exact hne hid

/-! ## The warning map -/

/-- C5: the warning map is symmetric.  In a collection with unique ids, for
the ids `a` and `b` of two of its items, `b` is listed in
`getOverlapWarnings(items)[a]` if and only if `a` is listed in
`getOverlapWarnings(items)[b]`. -/
theorem getOverlapWarnings_symmetric (parse : String → Option Int) (items : List Task)
    (hu : uniqueIds items) (a b : JSVal)
    (ha : a ∈ items.map (fun t => t.id)) (hb : b ∈ items.map (fun t => t.id)) :
    listedUnder (getOverlapWarnings parse items) a b ↔
      listedUnder (getOverlapWarnings parse items) b a := by
  obtain ⟨x, hx, rfl⟩ := List.mem_map.mp ha
  obtain ⟨y, hy, rfl⟩ := List.mem_map.mp hb
  rw [listedUnder_iff parse items hu x y hx hy, listedUnder_iff parse items hu y x hy hx,
    tasksOverlap_comm parse x y]
  constructor
  · rintro ⟨hne, hov⟩
    exact ⟨fun h => hne h.symm, hov⟩
  · rintro ⟨hne, hov⟩
    exact ⟨fun h => hne h.symm, hov⟩

/-- In the sample collection `b` is listed under `a` and `a` under `b`. -/
theorem getOverlapWarnings_symmetric_witness :
    listedUnder (getOverlapWarnings isoDateParse sampleTasks) (.str "a") (.str "b") ↔
      listedUnder (getOverlapWarnings isoDateParse sampleTasks) (.str "b") (.str "a") :=
  getOverlapWarnings_symmetric isoDateParse sampleTasks (by decide) (.str "a") (.str "b")
    (by decide) (by decide)

/-- C8: in a collection with unique ids, an item that lacks its start date or
its end date has no key in `getOverlapWarnings(items)`, and its id is in no
sequence stored in that map and in no conflict sequence
`findOverlappingTasks(y, items)` of any item `y`. -/
theorem missing_date_excluded (parse : String → Option Int) (items : List Task)
    (hu : uniqueIds items) (x : Task) (hx : x ∈ items)
    (hm : toBoolean x.startDate = false ∨ toBoolean x.endDate = false) :
    toPropertyKey x.id ∉ objKeys (getOverlapWarnings parse items)
      ∧ (∀ e ∈ getOverlapWarnings parse items, x.id ∉ e.2)
      ∧ (∀ y : Task, x.id ∉ findOverlappingTasks parse y items) := by
  have hnd : ¬ hasDates x = true := by
    unfold hasDates
    rcases hm with h | h <;> simp [h]
  have h3 : ∀ y : Task, x.id ∉ findOverlappingTasks parse y items := by
    intro y hmem
    obtain ⟨t, ht, hid, _, hd, _⟩ := (mem_findOverlappingTasks parse y items x.id).mp hmem
    have htx : t = x := uniqueIds_eq_of_key items hu t x ht hx (by rw [hid])
    exact hnd (htx ▸ hd)
  refine ⟨?_, ?_, h3⟩
  · intro hkey
    exact hnd ((item_key_mem_iff parse items hu x hx).mp
      (rawKeys_of_mem_objKeys _ _ hkey)).1
  · intro e he
    rcases mem_foldl_entries parse items items [] e he with h | ⟨y, _, _, rfl⟩
    · simp at h
    · exact h3 y

/-- The item `d` of the sample collection starts inside `a` and has no end
date. -/
theorem missing_date_excluded_witness :
    toPropertyKey (.str "d") ∉ objKeys (getOverlapWarnings isoDateParse sampleTasks)
      ∧ (∀ e ∈ getOverlapWarnings isoDateParse sampleTasks, JSVal.str "d" ∉ e.2)
      ∧ (∀ y : Task, JSVal.str "d" ∉ findOverlappingTasks isoDateParse y sampleTasks) :=
  missing_date_excluded isoDateParse sampleTasks (by decide)
    { id := .str "d", startDate := .str "2024-01-02", endDate := .undefined }
    (by decide) (Or.inr (by decide))

/-- C9: the id `__proto__`.  The collection `protoIdTasks` has unique ids; its
item `protoItem` has both dates and the conflict sequence `[b]`, and its id is
no key of `getOverlapWarnings(items)`: the assignment
`warnings['__proto__'] = [...]` on the plain object replaced its prototype and
created no property.  The keys of the map are `b` alone, its entries
`b: ['__proto__']`. -/
theorem getOverlapWarnings_proto_id_no_key :
    uniqueIds protoIdTasks
      ∧ protoItem ∈ protoIdTasks
      ∧ hasDates protoItem = true
      ∧ findOverlappingTasks isoDateParse protoItem protoIdTasks = [.str "b"]
      ∧ toPropertyKey protoItem.id ∉ objKeys (getOverlapWarnings isoDateParse protoIdTasks)
      ∧ objKeys (getOverlapWarnings isoDateParse protoIdTasks) = ["b"]
      ∧ objEntries (getOverlapWarnings isoDateParse protoIdTasks)
          = [("b", [.str "__proto__"])] := by
  decide

/-- C10: in a collection with unique ids, for every item `x` that has a key in
`getOverlapWarnings(items)`, the value stored under the id of `x` is
`findOverlappingTasks(x, items)`, computed against the full collection. -/
theorem getOverlapWarnings_value (parse : String → Option Int) (items : List Task)
    (hu : uniqueIds items) (x : Task) (hx : x ∈ items)
    (hkey : toPropertyKey x.id ∈ objKeys (getOverlapWarnings parse items)) :
    objGet (getOverlapWarnings parse items) (toPropertyKey x.id)
      = some (findOverlappingTasks parse x items) :=
  objGet_getOverlapWarnings parse items hu x hx
    ((item_key_mem_iff parse items hu x hx).mp (rawKeys_of_mem_objKeys _ _ hkey))

/-- The entry of `a` in the sample collection. -/
theorem getOverlapWarnings_value_witness :
    objGet (getOverlapWarnings isoDateParse sampleTasks) (toPropertyKey (.str "a"))
      = some (findOverlappingTasks isoDateParse
          { id := .str "a", startDate := .str "2024-01-01", endDate := .str "2024-01-05" }
          sampleTasks) :=
  getOverlapWarnings_value isoDateParse sampleTasks (by decide)
    { id := .str "a", startDate := .str "2024-01-01", endDate := .str "2024-01-05" }
    (by decide) (by decide)

/-- C11: three items with the distinct ids `__proto__`, `b` and `c`, all with
valid dates, where the first two overlap and `c` overlaps neither.
`getOverlapWarnings([A, B, C])` has the one entry `b: ['__proto__']` and the
one key `b`; the sequence `[b]` of the first item became the prototype of the
object.  It is not the map of the two entries `__proto__: [b]` and
`b: [__proto__]`. -/
theorem getOverlapWarnings_three_proto_id :
    uniqueIds protoIdThree
      ∧ (∀ x ∈ protoIdThree,
          (newDate isoDateParse x.startDate).isSome = true
            ∧ (newDate isoDateParse x.endDate).isSome = true)
      ∧ tasksOverlap isoDateParse protoItem touchingItem = true
      ∧ tasksOverlap isoDateParse protoItem marchItem = false
      ∧ tasksOverlap isoDateParse touchingItem marchItem = false
      ∧ objKeys (getOverlapWarnings isoDateParse protoIdThree) = ["b"]
      ∧ objEntries (getOverlapWarnings isoDateParse protoIdThree)
          = [("b", [.str "__proto__"])]
      ∧ objEntries (getOverlapWarnings isoDateParse protoIdThree)
          ≠ [("__proto__", [.str "b"]), ("b", [.str "__proto__"])]
      ∧ objGet (getOverlapWarnings isoDateParse protoIdThree) "__proto__"
          = some [.str "b"] := by
  decide

/-! ## Boundary, disjoint and nested ranges -/

/-- C12, as stated, fails: `A` from 1 January 2024 to 5 January 08:00 UTC and
`B` from 5 January 17:00 UTC to 10 January have valid dates, each range has
start <= end, the end date of `A` and the start date of `B` are the same
calendar date, and `tasksOverlap(A, B)` is false. -/
theorem boundary_touch_later_that_day :
    dateAt isoDateTimeParse morningTask.startDate 1704067200000
      ∧ dateAt isoDateTimeParse morningTask.endDate 1704441600000
      ∧ dateAt isoDateTimeParse eveningTask.startDate 1704474000000
      ∧ dateAt isoDateTimeParse eveningTask.endDate 1704844800000
      ∧ (1704067200000 : Int) ≤ 1704441600000
      ∧ (1704474000000 : Int) ≤ 1704844800000
      ∧ calendarDay 1704441600000 = calendarDay 1704474000000
      ∧ tasksOverlap isoDateTimeParse morningTask eveningTask = false :=
  ⟨⟨by decide, by decide⟩, ⟨by decide, by decide⟩, ⟨by decide, by decide⟩,
    ⟨by decide, by decide⟩, by decide, by decide, by decide, by decide⟩

/-- C12, amended: a touch at a boundary counts as overlap.  Two items with
valid dates, each range with start <= end, where the end date of `A` and the
start date of `B` are the same instant (the same time value `d`, as two equal
date-only strings have): `tasksOverlap(A, B)` is true. -/
theorem tasksOverlap_boundary_touch (parse : String → Option Int) (A B : Task)
    (sa d eb : Int)
    (h1 : dateAt parse A.startDate sa) (h2 : dateAt parse A.endDate d)
    (h3 : dateAt parse B.startDate d) (h4 : dateAt parse B.endDate eb)
    (hA : sa ≤ d) (hB : d ≤ eb) :
    tasksOverlap parse A B = true :=
  (tasksOverlap_iff_of_dateAt parse A B sa d d eb h1 h2 h3 h4).mpr
    ⟨le_trans hA hB, le_refl d⟩

/-- The example of the specification: `A` from 1 to 5 January 2024, `B` from 5
to 10 January 2024. -/
theorem tasksOverlap_boundary_touch_witness :
    tasksOverlap isoDateParse
      { id := .str "A", startDate := .str "2024-01-01", endDate := .str "2024-01-05" }
      { id := .str "B", startDate := .str "2024-01-05", endDate := .str "2024-01-10" }
      = true :=
  tasksOverlap_boundary_touch isoDateParse
    { id := .str "A", startDate := .str "2024-01-01", endDate := .str "2024-01-05" }
    { id := .str "B", startDate := .str "2024-01-05", endDate := .str "2024-01-10" }
    1704067200000 1704412800000 1704844800000
    ⟨by decide, by decide⟩ ⟨by decide, by decide⟩ ⟨by decide, by decide⟩
    ⟨by decide, by decide⟩ (by decide) (by decide)

/-- C13: disjoint ranges do not overlap.  Two items with valid dates where the
end date of `A` is strictly before the start date of `B`: `tasksOverlap(A, B)`
and `tasksOverlap(B, A)` are both false. -/
theorem tasksOverlap_disjoint (parse : String → Option Int) (A B : Task)
    (sa ea sb eb : Int)
    (h1 : dateAt parse A.startDate sa) (h2 : dateAt parse A.endDate ea)
    (h3 : dateAt parse B.startDate sb) (h4 : dateAt parse B.endDate eb)
    (hlt : ea < sb) :
    tasksOverlap parse A B = false ∧ tasksOverlap parse B A = false := by
  have h : tasksOverlap parse A B = false := by
    rw [Bool.eq_false_iff, ne_eq, tasksOverlap_iff_of_dateAt parse A B sa ea sb eb h1 h2 h3 h4]
    exact fun h => absurd h.2 (not_le.mpr hlt)
  exact ⟨h, by rw [tasksOverlap_comm]; exact h⟩

/-- The example of the specification: `A` from 1 to 3 January 2024, `B` from 5
to 10 January 2024. -/
theorem tasksOverlap_disjoint_witness :
    tasksOverlap isoDateParse
        { id := .str "A", startDate := .str "2024-01-01", endDate := .str "2024-01-03" }
        { id := .str "B", startDate := .str "2024-01-05", endDate := .str "2024-01-10" }
        = false
      ∧ tasksOverlap isoDateParse
        { id := .str "B", startDate := .str "2024-01-05", endDate := .str "2024-01-10" }
        { id := .str "A", startDate := .str "2024-01-01", endDate := .str "2024-01-03" }
        = false :=
  tasksOverlap_disjoint isoDateParse
    { id := .str "A", startDate := .str "2024-01-01", endDate := .str "2024-01-03" }
    { id := .str "B", startDate := .str "2024-01-05", endDate := .str "2024-01-10" }
    1704067200000 1704240000000 1704412800000 1704844800000
    ⟨by decide, by decide⟩ ⟨by decide, by decide⟩ ⟨by decide, by decide⟩
    ⟨by decide, by decide⟩ (by decide)

/-- C14: equal and nested ranges overlap.  Two items with valid dates where
`A.startDate <= B.startDate <= B.endDate <= A.endDate` (identical ranges
included): `tasksOverlap(A, B)` and `tasksOverlap(B, A)` are both true. -/
theorem tasksOverlap_nested (parse : String → Option Int) (A B : Task)
    (sa ea sb eb : Int)
    (h1 : dateAt parse A.startDate sa) (h2 : dateAt parse A.endDate ea)
    (h3 : dateAt parse B.startDate sb) (h4 : dateAt parse B.endDate eb)
    (hs : sa ≤ sb) (hb : sb ≤ eb) (he : eb ≤ ea) :
    tasksOverlap parse A B = true ∧ tasksOverlap parse B A = true := by
  have h : tasksOverlap parse A B = true :=
    (tasksOverlap_iff_of_dateAt parse A B sa ea sb eb h1 h2 h3 h4).mpr
      ⟨le_trans hs hb, le_trans hb he⟩
  exact ⟨h, by rw [tasksOverlap_comm]; exact h⟩

/-- The example of the specification: `A` is the whole of January 2024, `B`
goes from 10 to 15 January 2024. -/
theorem tasksOverlap_nested_witness :
    tasksOverlap isoDateParse
        { id := .str "A", startDate := .str "2024-01-01", endDate := .str "2024-01-31" }
        { id := .str "B", startDate := .str "2024-01-10", endDate := .str "2024-01-15" }
        = true
      ∧ tasksOverlap isoDateParse
        { id := .str "B", startDate := .str "2024-01-10", endDate := .str "2024-01-15" }
        { id := .str "A", startDate := .str "2024-01-01", endDate := .str "2024-01-31" }
        = true :=
  tasksOverlap_nested isoDateParse
    { id := .str "A", startDate := .str "2024-01-01", endDate := .str "2024-01-31" }
    { id := .str "B", startDate := .str "2024-01-10", endDate := .str "2024-01-15" }
    1704067200000 1706659200000 1704844800000 1705276800000
    ⟨by decide, by decide⟩ ⟨by decide, by decide⟩ ⟨by decide, by decide⟩
    ⟨by decide, by decide⟩ (by decide) (by decide) (by decide)

/-- C15, as stated, fails: `A` from 1 January 2024 to 5 January 08:00 UTC and
`B` from 5 January 17:00 UTC to 10 January have valid dates and well-formed
ranges, the two ranges share the calendar day of 5 January (day 19727 since the
epoch), and `tasksOverlap(A, B)` is false. -/
theorem common_day_without_overlap :
    dateAt isoDateTimeParse morningTask.startDate 1704067200000
      ∧ dateAt isoDateTimeParse morningTask.endDate 1704441600000
      ∧ dateAt isoDateTimeParse eveningTask.startDate 1704474000000
      ∧ dateAt isoDateTimeParse eveningTask.endDate 1704844800000
      ∧ (1704067200000 : Int) ≤ 1704441600000
      ∧ (1704474000000 : Int) ≤ 1704844800000
      ∧ (∃ day : Int,
          (calendarDay 1704067200000 ≤ day ∧ day ≤ calendarDay 1704441600000)
            ∧ (calendarDay 1704474000000 ≤ day ∧ day ≤ calendarDay 1704844800000))
      ∧ tasksOverlap isoDateTimeParse morningTask eveningTask = false :=
  ⟨⟨by decide, by decide⟩, ⟨by decide, by decide⟩, ⟨by decide, by decide⟩,
    ⟨by decide, by decide⟩, by decide, by decide,
    ⟨19727, ⟨by decide, by decide⟩, ⟨by decide, by decide⟩⟩, by decide⟩

/-- C15, amended: for two tasks with valid dates and well-formed ranges
(start <= end), `tasksOverlap` is true exactly when the two inclusive ranges
share an instant: there is a time value `d` with `A.startDate <= d <= A.endDate`
and `B.startDate <= d <= B.endDate`.  When both start dates are at midnight
UTC, as the dates of date-only strings are, that is exactly when the two ranges
share a calendar day. -/
theorem tasksOverlap_iff_common_date (parse : String → Option Int) (A B : Task)
    (sa ea sb eb : Int)
    (h1 : dateAt parse A.startDate sa) (h2 : dateAt parse A.endDate ea)
    (h3 : dateAt parse B.startDate sb) (h4 : dateAt parse B.endDate eb)
    (hA : sa ≤ ea) (hB : sb ≤ eb) :
    (tasksOverlap parse A B = true ↔
        ∃ d : Int, (sa ≤ d ∧ d ≤ ea) ∧ (sb ≤ d ∧ d ≤ eb))
      ∧ (sa % 86400000 = 0 → sb % 86400000 = 0 →
          (tasksOverlap parse A B = true ↔
            ∃ day : Int, (calendarDay sa ≤ day ∧ day ≤ calendarDay ea)
              ∧ (calendarDay sb ≤ day ∧ day ≤ calendarDay eb))) := by
  rw [tasksOverlap_iff_of_dateAt parse A B sa ea sb eb h1 h2 h3 h4]
  constructor
  · constructor
    · rintro ⟨hab, hba⟩
      exact ⟨max sa sb, ⟨le_max_left _ _, max_le hA hba⟩, ⟨le_max_right _ _, max_le hab hB⟩⟩
    · rintro ⟨d, ⟨h5, h6⟩, ⟨h7, h8⟩⟩
      exact ⟨le_trans h5 h8, le_trans h7 h6⟩
  · intro hsa hsb
    unfold calendarDay
    constructor
    · rintro ⟨hab, hba⟩
      refine ⟨max (sa / 86400000) (sb / 86400000), ⟨le_max_left _ _, max_le ?_ ?_⟩,
        ⟨le_max_right _ _, max_le ?_ ?_⟩⟩ <;> omega
    · rintro ⟨day, ⟨h5, h6⟩, ⟨h7, h8⟩⟩
      constructor <;> omega

/-- Two tasks that share 5 January 2024 only. -/
theorem tasksOverlap_iff_common_date_witness :
    (tasksOverlap isoDateParse
        { id := .str "A", startDate := .str "2024-01-01", endDate := .str "2024-01-05" }
        { id := .str "B", startDate := .str "2024-01-05", endDate := .str "2024-01-10" }
        = true ↔
      ∃ d : Int, ((1704067200000 : Int) ≤ d ∧ d ≤ 1704412800000)
        ∧ ((1704412800000 : Int) ≤ d ∧ d ≤ 1704844800000))
      ∧ ((1704067200000 : Int) % 86400000 = 0 → (1704412800000 : Int) % 86400000 = 0 →
          (tasksOverlap isoDateParse
            { id := .str "A", startDate := .str "2024-01-01", endDate := .str "2024-01-05" }
            { id := .str "B", startDate := .str "2024-01-05", endDate := .str "2024-01-10" }
            = true ↔
          ∃ day : Int, (calendarDay 1704067200000 ≤ day ∧ day ≤ calendarDay 1704412800000)
            ∧ (calendarDay 1704412800000 ≤ day ∧ day ≤ calendarDay 1704844800000))) :=
  tasksOverlap_iff_common_date isoDateParse
    { id := .str "A", startDate := .str "2024-01-01", endDate := .str "2024-01-05" }
    { id := .str "B", startDate := .str "2024-01-05", endDate := .str "2024-01-10" }
    1704067200000 1704412800000 1704412800000 1704844800000
    ⟨by decide, by decide⟩ ⟨by decide, by decide⟩ ⟨by decide, by decide⟩
    ⟨by decide, by decide⟩ (by decide) (by decide)

/-! ## Unparseable and missing dates -/

/-- C16: an item with an unparseable date neither reports nor receives
overlaps.  When the start date or the end date of `x` does not give a valid
date (`new Date` of it is an Invalid Date, the field being present or not),
`tasksOverlap` is false between `x` and every item, in both argument orders;
the conflict sequence of `x` is empty over every collection; and in a
collection with unique ids `x` has no key in `getOverlapWarnings` and its id is
in no sequence of that map and in no conflict sequence of an item. -/
theorem unparseable_date_excluded (parse : String → Option Int) (x : Task)
    (hx : newDate parse x.startDate = none ∨ newDate parse x.endDate = none) :
    (∀ t : Task, tasksOverlap parse x t = false ∧ tasksOverlap parse t x = false)
      ∧ (∀ items : List Task, findOverlappingTasks parse x items = [])
      ∧ (∀ items : List Task, uniqueIds items → x ∈ items →
          toPropertyKey x.id ∉ objKeys (getOverlapWarnings parse items)
            ∧ (∀ e ∈ getOverlapWarnings parse items, x.id ∉ e.2)
            ∧ (∀ y : Task, x.id ∉ findOverlappingTasks parse y items)) := by
  have h1 : ∀ t : Task, tasksOverlap parse x t = false :=
    fun t => tasksOverlap_of_invalid parse x t hx
  have h2 : ∀ items : List Task, findOverlappingTasks parse x items = [] :=
    fun items => findOverlappingTasks_eq_nil_of_no_overlap parse x items (fun t _ => h1 t)
  refine ⟨fun t => ⟨h1 t, by rw [tasksOverlap_comm]; exact h1 t⟩, h2, ?_⟩
  intro items hu hmem
  have h3 : ∀ y : Task, x.id ∉ findOverlappingTasks parse y items := by
    intro y hy
    obtain ⟨t, ht, hid, _, _, hov⟩ := (mem_findOverlappingTasks parse y items x.id).mp hy
    have htx : t = x := uniqueIds_eq_of_key items hu t x ht hmem (by rw [hid])
    rw [htx, tasksOverlap_comm, h1 y] at hov
    exact Bool.false_ne_true hov
  refine ⟨?_, ?_, h3⟩
  · intro hkey
    exact ((item_key_mem_iff parse items hu x hmem).mp
      (rawKeys_of_mem_objKeys _ _ hkey)).2 (h2 items)
  · intro e he
    rcases mem_foldl_entries parse items items [] e he with h | ⟨y, _, _, rfl⟩
    · simp at h
    · exact h3 y

/-- An item whose start date is present and is not a date, with an end date in
the range of `a`, put in front of the sample collection. -/
theorem unparseable_date_excluded_witness :
    (∀ t : Task,
        tasksOverlap isoDateParse
          { id := .str "x", startDate := .str "soon", endDate := .str "2024-01-03" } t = false
        ∧ tasksOverlap isoDateParse t
          { id := .str "x", startDate := .str "soon", endDate := .str "2024-01-03" } = false)
      ∧ (∀ items : List Task, findOverlappingTasks isoDateParse
          { id := .str "x", startDate := .str "soon", endDate := .str "2024-01-03" } items = [])
      ∧ (∀ items : List Task, uniqueIds items →
          ({ id := .str "x", startDate := .str "soon", endDate := .str "2024-01-03" } : Task)
            ∈ items →
          toPropertyKey (.str "x") ∉ objKeys (getOverlapWarnings isoDateParse items)
            ∧ (∀ e ∈ getOverlapWarnings isoDateParse items, JSVal.str "x" ∉ e.2)
            ∧ (∀ y : Task, JSVal.str "x" ∉ findOverlappingTasks isoDateParse y items)) :=
  unparseable_date_excluded isoDateParse
    { id := .str "x", startDate := .str "soon", endDate := .str "2024-01-03" }
    (Or.inl (by decide))

/-- C19: `tasksOverlap(A, B)` equals
`datesOverlap(A.startDate, A.endDate, B.startDate, B.endDate)` for all task
objects; it is false whenever one of them lacks its start date or its end
date, which is what the date predicate gives too: the guard of `tasksOverlap`
never changes the result. -/
theorem tasksOverlap_eq_datesOverlap (parse : String → Option Int) (A B : Task) :
    tasksOverlap parse A B
        = datesOverlap parse A.startDate A.endDate B.startDate B.endDate
      ∧ ((hasDates A = false ∨ hasDates B = false) →
          tasksOverlap parse A B = false
            ∧ datesOverlap parse A.startDate A.endDate B.startDate B.endDate = false) := by
  have h := tasksOverlap_unfold parse A B
  refine ⟨h, fun hd => ?_⟩
  have hf : tasksOverlap parse A B = false := by
    rw [Bool.eq_false_iff]
    intro hov
    have hh := tasksOverlap_hasDates parse A B hov
    rcases hd with hd | hd
    · rw [hh.1] at hd
      exact Bool.noConfusion hd
    · rw [hh.2] at hd
      exact Bool.noConfusion hd
  exact ⟨hf, h ▸ hf⟩

/-- C20: a target that lacks its start date or its end date has an empty
conflict sequence, whatever the collection and the dates of its items are. -/
theorem findOverlappingTasks_missing_target (parse : String → Option Int) (task : Task)
    (allTasks : List Task)
    (h : toBoolean task.startDate = false ∨ toBoolean task.endDate = false) :
    findOverlappingTasks parse task allTasks = [] := by
  apply findOverlappingTasks_of_not_hasDates
  unfold hasDates
  rcases h with h | h <;> simp [h]

/-- The item `d` of the sample collection starts inside the range of `a` and
has no end date. -/
theorem findOverlappingTasks_missing_target_witness :
    findOverlappingTasks isoDateParse
      { id := .str "d", startDate := .str "2024-01-02", endDate := .undefined }
      sampleTasks = [] :=
  findOverlappingTasks_missing_target isoDateParse
    { id := .str "d", startDate := .str "2024-01-02", endDate := .undefined }
    sampleTasks (Or.inr (by decide))

/-! ## Malformed input -/

/-- C17, as stated, fails: on the array of a dated task followed by `null`,
`getOverlapWarnings` raises a `TypeError` and returns no mapping. -/
theorem getOverlapWarningsE_null_element :
    getOverlapWarningsE isoDateParse
        [.object { id := .str "a", startDate := .str "2024-01-01", endDate := .str "2024-01-05" },
         .primitive .null]
        = .error .typeError
      ∧ ¬ ∃ w, getOverlapWarningsE isoDateParse
        [.object { id := .str "a", startDate := .str "2024-01-01", endDate := .str "2024-01-05" },
         .primitive .null]
        = .ok w := by
  have h : getOverlapWarningsE isoDateParse
      [.object { id := .str "a", startDate := .str "2024-01-01", endDate := .str "2024-01-05" },
       .primitive .null]
      = .error .typeError := rfl
  refine ⟨h, ?_⟩
  rintro ⟨w, hw⟩
  rw [h] at hw
  cases hw

/-- C17, amended: on every array none of whose elements is `null` or
`undefined`, whatever the elements hold (ids and dates absent, empty or
unparseable, or an element that is a boolean, a number or a string and no task
object), `getOverlapWarnings` raises no exception and returns a mapping, the
one of the detector on task objects. -/
theorem getOverlapWarningsE_total (parse : String → Option Int) (elems : List Elem)
    (h : ∀ e ∈ elems, e.isNullish = false) :
    getOverlapWarningsE parse elems
      = .ok (getOverlapWarnings parse (elems.map Elem.asTask)) :=
  foldlM_warnStepE_ok parse elems elems [] h h

/-- An array with two overlapping tasks, a task without dates, a task with an
unparseable date, an empty object, a number and a string. -/
theorem getOverlapWarningsE_total_witness :
    getOverlapWarningsE isoDateParse
        [.object { id := .str "a", startDate := .str "2024-01-01", endDate := .str "2024-01-05" },
         .object { id := .str "b", startDate := .str "2024-01-05", endDate := .str "2024-01-10" },
         .object { id := .num 3, startDate := .str "", endDate := .null },
         .object { id := .str "x", startDate := .str "soon", endDate := .str "2024-01-03" },
         .object { id := .undefined, startDate := .undefined, endDate := .undefined },
         .primitive (.num 7),
         .primitive (.str "task")]
      = .ok (getOverlapWarnings isoDateParse
        ([.object { id := .str "a", startDate := .str "2024-01-01", endDate := .str "2024-01-05" },
          .object { id := .str "b", startDate := .str "2024-01-05", endDate := .str "2024-01-10" },
          .object { id := .num 3, startDate := .str "", endDate := .null },
          .object { id := .str "x", startDate := .str "soon", endDate := .str "2024-01-03" },
          .object { id := .undefined, startDate := .undefined, endDate := .undefined },
          .primitive (.num 7),
          .primitive (.str "task")].map Elem.asTask)) :=
  getOverlapWarningsE_total isoDateParse _ (by decide)

/-! ## Time of day -/

/-- C18, as stated, fails: values of the same calendar day and another time of
day change the result.  The ranges 1 to 5 January 2024 and 5 to 10 January
2024 overlap; with the start of the second one at 17:00 of the same 5 January
they do not, and neither do a range that ends on 5 January at 08:00 and one
that starts on 5 January at 17:00. -/
theorem datesOverlap_time_of_day :
    newDate isoDateTimeParse (.str "2024-01-05") = some 1704412800000
      ∧ newDate isoDateTimeParse (.str "2024-01-05T08:00:00Z") = some 1704441600000
      ∧ newDate isoDateTimeParse (.str "2024-01-05T17:00:00Z") = some 1704474000000
      ∧ calendarDay 1704441600000 = calendarDay 1704412800000
      ∧ calendarDay 1704474000000 = calendarDay 1704412800000
      ∧ datesOverlap isoDateTimeParse (.str "2024-01-01") (.str "2024-01-05")
          (.str "2024-01-05") (.str "2024-01-10") = true
      ∧ datesOverlap isoDateTimeParse (.str "2024-01-01") (.str "2024-01-05")
          (.str "2024-01-05T17:00:00Z") (.str "2024-01-10") = false
      ∧ datesOverlap isoDateTimeParse (.str "2024-01-01") (.str "2024-01-05T08:00:00Z")
          (.str "2024-01-05T17:00:00Z") (.str "2024-01-10") = false := by
  decide

/-- C18, amended: dates compare by the time value of `new Date`, time of day
included.  Replacing any of the four arguments of `datesOverlap` by another
value that is present like it and has the same time value does not change the
result. -/
theorem datesOverlap_same_instant (parse : String → Option Int)
    (start1 end1 start2 end2 start1' end1' start2' end2' : JSVal)
    (b1 : toBoolean start1 = toBoolean start1') (b2 : toBoolean end1 = toBoolean end1')
    (b3 : toBoolean start2 = toBoolean start2') (b4 : toBoolean end2 = toBoolean end2')
    (t1 : newDate parse start1 = newDate parse start1')
    (t2 : newDate parse end1 = newDate parse end1')
    (t3 : newDate parse start2 = newDate parse start2')
    (t4 : newDate parse end2 = newDate parse end2') :
    datesOverlap parse start1 end1 start2 end2
      = datesOverlap parse start1' end1' start2' end2' := by
  unfold datesOverlap
  rw [b1, b2, b3, b4, t1, t2, t3, t4]

/-- The date-only string of 5 January 2024 and midnight UTC of that day are
the same instant. -/
theorem datesOverlap_same_instant_witness :
    datesOverlap isoDateTimeParse (.str "2024-01-01") (.str "2024-01-05")
        (.str "2024-01-05") (.str "2024-01-10")
      = datesOverlap isoDateTimeParse (.str "2024-01-01") (.str "2024-01-05T00:00:00Z")
        (.num 1704412800000) (.str "2024-01-10") :=
  datesOverlap_same_instant isoDateTimeParse
    (.str "2024-01-01") (.str "2024-01-05") (.str "2024-01-05") (.str "2024-01-10")
    (.str "2024-01-01") (.str "2024-01-05T00:00:00Z") (.num 1704412800000) (.str "2024-01-10")
    (by decide) (by decide) (by decide) (by decide)
    (by decide) (by decide) (by decide) (by decide)

/-! ## Repeated calls, `hasOverlaps` and the colours -/

/-- C21: a call of `getOverlapWarnings` leaves the collection and its items as
they were and returns the mapping of `getOverlapWarnings`; a second call on
the collection as the first one left it returns the identical mapping, same
keys and same id sequences in the same order. -/
theorem getOverlapWarnings_idempotent (parse : String → Option Int) (tasks : List Task) :
    (getOverlapWarningsRun parse tasks).tasks = tasks
      ∧ (getOverlapWarningsRun parse tasks).warnings = getOverlapWarnings parse tasks
      ∧ (getOverlapWarningsRun parse (getOverlapWarningsRun parse tasks).tasks).warnings
          = (getOverlapWarningsRun parse tasks).warnings
      ∧ (getOverlapWarningsRun parse (getOverlapWarningsRun parse tasks).tasks).tasks
          = tasks := by
  have h : getOverlapWarningsRun parse tasks
      = { tasks := tasks, warnings := getOverlapWarnings parse tasks } := by
    unfold getOverlapWarningsRun getOverlapWarnings
    rw [foldl_forEachStep]
  rw [h]
  simp only [h, and_self]

/-- C22: `hasOverlaps(task, allTasks)` is true exactly when some element of
`allTasks` has another id than `task`, has both dates, and is reported by
`tasksOverlap` against `task`; equivalently, when
`findOverlappingTasks(task, allTasks)` is not empty. -/
theorem hasOverlaps_iff (parse : String → Option Int) (task : Task) (allTasks : List Task) :
    (hasOverlaps parse task allTasks = true ↔
        ∃ t ∈ allTasks, t.id ≠ task.id ∧ hasDates t = true
          ∧ tasksOverlap parse task t = true)
      ∧ (hasOverlaps parse task allTasks = true ↔
        findOverlappingTasks parse task allTasks ≠ []) := by
  have h2 : hasOverlaps parse task allTasks = true ↔
      findOverlappingTasks parse task allTasks ≠ [] := by
    unfold hasOverlaps
    rw [decide_eq_true_iff]
    exact List.length_pos
  refine ⟨?_, h2⟩
  rw [h2]
  constructor
  · intro hne
    obtain ⟨i, hi⟩ := List.exists_mem_of_ne_nil _ hne
    obtain ⟨t, ht, _, h⟩ := (mem_findOverlappingTasks parse task allTasks i).mp hi
    exact ⟨t, ht, h⟩
  · rintro ⟨t, ht, h⟩
    exact List.ne_nil_of_mem
      ((mem_findOverlappingTasks parse task allTasks t.id).mpr ⟨t, ht, rfl, h⟩)

/-- C25: in `getStatusColor` the overlap comes before the status.  With
`hasOverlap` true the colour is the yellow `#eab308` for every status; with
`hasOverlap` false it is green `#16a34a` for `Completed`, blue `#2563eb` for
`In Progress`, red `#dc2626` for `Blocked`, and gray `#9ca3af` for every other
status. -/
theorem getStatusColor_spec :
    (∀ status : JSVal, getStatusColor status true = "#eab308")
      ∧ getStatusColor (.str "Completed") false = "#16a34a"
      ∧ getStatusColor (.str "In Progress") false = "#2563eb"
      ∧ getStatusColor (.str "Blocked") false = "#dc2626"
      ∧ (∀ status : JSVal, status ≠ .str "Completed" → status ≠ .str "In Progress" →
          status ≠ .str "Blocked" → getStatusColor status false = "#9ca3af") := by
  refine ⟨fun status => rfl, by decide, by decide, by decide, ?_⟩
  intro status h1 h2 h3
  have e1 : strictEq status (.str "Completed") = false := by
    rw [Bool.eq_false_iff, ne_eq, strictEq_iff]
    exact h1
  have e2 : strictEq status (.str "In Progress") = false := by
    rw [Bool.eq_false_iff, ne_eq, strictEq_iff]
    exact h2
  have e3 : strictEq status (.str "Blocked") = false := by
    rw [Bool.eq_false_iff, ne_eq, strictEq_iff]
    exact h3
  simp [getStatusColor, e1, e2, e3]

/-! ## Repeated ids and inverted ranges -/

/-- C27: two elements with the same id (both ids missing included) are never
reported as conflicting with each other: the shared id is in the conflict
sequence of neither, over any collection, whatever their dates are.  And
under a key `getOverlapWarnings` keeps one sequence only, the one of the last
element of the collection with that key that has both dates and a non-empty
conflict sequence. -/
theorem same_id_elements (parse : String → Option Int) (before after : List Task)
    (x : Task) (hx : reportsConflicts parse (before ++ x :: after) x)
    (hlast : ∀ z ∈ after, reportsConflicts parse (before ++ x :: after) z →
      toPropertyKey z.id ≠ toPropertyKey x.id) :
    (∀ (A B : Task) (allTasks : List Task), A.id = B.id →
        B.id ∉ findOverlappingTasks parse A allTasks
          ∧ A.id ∉ findOverlappingTasks parse B allTasks)
      ∧ objGet (getOverlapWarnings parse (before ++ x :: after)) (toPropertyKey x.id)
          = some (findOverlappingTasks parse x (before ++ x :: after))
      ∧ (objKeys (getOverlapWarnings parse (before ++ x :: after))).Nodup := by
  refine ⟨?_, objGet_last_writer parse before after x hx hlast, ?_⟩
  · intro A B allTasks hid
    constructor
    · intro h
      obtain ⟨t, _, h1, h2, _⟩ := (mem_findOverlappingTasks parse A allTasks B.id).mp h
      exact h2 (h1.trans hid.symm)
    · intro h
      obtain ⟨t, _, h1, h2, _⟩ := (mem_findOverlappingTasks parse B allTasks A.id).mp h
      exact h2 (h1.trans hid)
  · exact objKeys_nodup _ (rawKeys_foldl_nodup parse _ _ [] (by simp [rawKeys]))

/-- Two elements with the id `a` whose ranges overlap each other, `p` from 1 to
5 January 2024 and `q` from 3 to 12 January, and the elements `b`, from 5 to
10 January, and `c`, on 12 January: under the key `a` the map has the
sequence of `q`, the last of the two. -/
theorem same_id_elements_witness :
    (∀ (A B : Task) (allTasks : List Task), A.id = B.id →
        B.id ∉ findOverlappingTasks isoDateParse A allTasks
          ∧ A.id ∉ findOverlappingTasks isoDateParse B allTasks)
      ∧ objGet (getOverlapWarnings isoDateParse
          ([{ id := .str "a", startDate := .str "2024-01-01", endDate := .str "2024-01-05" }]
            ++ { id := .str "a", startDate := .str "2024-01-03", endDate := .str "2024-01-12" }
            :: [{ id := .str "b", startDate := .str "2024-01-05", endDate := .str "2024-01-10" },
                { id := .str "c", startDate := .str "2024-01-12", endDate := .str "2024-01-12" }]))
          (toPropertyKey (.str "a"))
          = some (findOverlappingTasks isoDateParse
            { id := .str "a", startDate := .str "2024-01-03", endDate := .str "2024-01-12" }
            ([{ id := .str "a", startDate := .str "2024-01-01", endDate := .str "2024-01-05" }]
              ++ { id := .str "a", startDate := .str "2024-01-03", endDate := .str "2024-01-12" }
              :: [{ id := .str "b", startDate := .str "2024-01-05", endDate := .str "2024-01-10" },
                  { id := .str "c", startDate := .str "2024-01-12", endDate := .str "2024-01-12" }]))
      ∧ (objKeys (getOverlapWarnings isoDateParse
          ([{ id := .str "a", startDate := .str "2024-01-01", endDate := .str "2024-01-05" }]
            ++ { id := .str "a", startDate := .str "2024-01-03", endDate := .str "2024-01-12" }
            :: [{ id := .str "b", startDate := .str "2024-01-05", endDate := .str "2024-01-10" },
                { id := .str "c", startDate := .str "2024-01-12", endDate := .str "2024-01-12" }]))).Nodup :=
  same_id_elements isoDateParse
    [{ id := .str "a", startDate := .str "2024-01-01", endDate := .str "2024-01-05" }]
    [{ id := .str "b", startDate := .str "2024-01-05", endDate := .str "2024-01-10" },
     { id := .str "c", startDate := .str "2024-01-12", endDate := .str "2024-01-12" }]
    { id := .str "a", startDate := .str "2024-01-03", endDate := .str "2024-01-12" }
    (by decide) (by decide)

/-- C28: an inverted range can be reported as a conflict.  The task `A` from 5
January to 3 January 2024 (its end is before its start) and the well-formed
task `B` from 1 to 10 January 2024 have valid dates, `tasksOverlap(A, B)` is
true, and both have an entry in `getOverlapWarnings([A, B])`. -/
theorem inverted_range_reported :
    ∃ (A B : Task) (sa ea sb eb : Int),
      dateAt isoDateParse A.startDate sa ∧ dateAt isoDateParse A.endDate ea
        ∧ dateAt isoDateParse B.startDate sb ∧ dateAt isoDateParse B.endDate eb
        ∧ ea < sa ∧ sb ≤ eb
        ∧ tasksOverlap isoDateParse A B = true
        ∧ getOverlapWarnings isoDateParse [A, B]
            = [(toPropertyKey A.id, [B.id]), (toPropertyKey B.id, [A.id])] :=
  ⟨{ id := .str "A", startDate := .str "2024-01-05", endDate := .str "2024-01-03" },
   { id := .str "B", startDate := .str "2024-01-01", endDate := .str "2024-01-10" },
   1704412800000, 1704240000000, 1704067200000, 1704844800000,
   ⟨by decide, by decide⟩, ⟨by decide, by decide⟩, ⟨by decide, by decide⟩,
   ⟨by decide, by decide⟩, by decide, by decide, by decide, by decide⟩

/-! ## Filtering the collection -/

/-- C30: the warning map is monotone under filtering.  For a collection with
unique ids and a sub-list `sub` of it (same relative order), every key of
`getOverlapWarnings(sub)` is a key of `getOverlapWarnings(tasks)`, and the
sequence stored under it is a subsequence of the one stored under it in
`getOverlapWarnings(tasks)`. -/
theorem getOverlapWarnings_monotone (parse : String → Option Int) (sub tasks : List Task)
    (hu : uniqueIds tasks) (hsub : sub.Sublist tasks) :
    (∀ k ∈ objKeys (getOverlapWarnings parse sub),
        k ∈ objKeys (getOverlapWarnings parse tasks))
      ∧ (∀ k ids, objGet (getOverlapWarnings parse sub) k = some ids →
          ∃ ids', objGet (getOverlapWarnings parse tasks) k = some ids'
            ∧ ids.Sublist ids') := by
  have hus := uniqueIds_sublist sub tasks hsub hu
  have key : ∀ x ∈ sub, reportsConflicts parse sub x → reportsConflicts parse tasks x := by
    intro x _ hr
    refine ⟨hr.1, fun hnil => hr.2 ?_⟩
    have hs := findOverlappingTasks_sublist parse x sub tasks hsub
    rw [hnil] at hs
    exact List.sublist_nil.mp hs
  constructor
  · intro k hk
    obtain ⟨hraw, hproto⟩ := (mem_objKeys_iff _ k).mp hk
    obtain ⟨x, hx, hkx, hr⟩ := (mem_rawKeys_getOverlapWarnings parse sub k).mp hraw
    exact (mem_objKeys_iff _ k).mpr
      ⟨(mem_rawKeys_getOverlapWarnings parse tasks k).mpr
        ⟨x, hsub.subset hx, hkx, key x hx hr⟩, hproto⟩
  · intro k ids hget
    obtain ⟨x, hx, hkx, hr, hv⟩ := objGet_getOverlapWarnings_some parse sub hus k ids hget
    refine ⟨findOverlappingTasks parse x tasks, ?_, ?_⟩
    · rw [← hkx]
      exact objGet_getOverlapWarnings parse tasks hu x (hsub.subset hx) (key x hx hr)
    · rw [hv]
      exact findOverlappingTasks_sublist parse x sub tasks hsub

/-- A collection of `a` (1 to 5 January 2024), `e` (4 to 6 January) and `b` (5
to 10 January), which overlap one another, and its sub-list of `a` and `b`:
the sequences `[b]` and `[a]` of the sub-list are subsequences of `[e, b]` and
`[a, e]`. -/
theorem getOverlapWarnings_monotone_witness :
    (∀ k ∈ objKeys (getOverlapWarnings isoDateParse
          [{ id := .str "a", startDate := .str "2024-01-01", endDate := .str "2024-01-05" },
           { id := .str "b", startDate := .str "2024-01-05", endDate := .str "2024-01-10" }]),
        k ∈ objKeys (getOverlapWarnings isoDateParse
          [{ id := .str "a", startDate := .str "2024-01-01", endDate := .str "2024-01-05" },
           { id := .str "e", startDate := .str "2024-01-04", endDate := .str "2024-01-06" },
           { id := .str "b", startDate := .str "2024-01-05", endDate := .str "2024-01-10" }]))
      ∧ (∀ k ids, objGet (getOverlapWarnings isoDateParse
          [{ id := .str "a", startDate := .str "2024-01-01", endDate := .str "2024-01-05" },
           { id := .str "b", startDate := .str "2024-01-05", endDate := .str "2024-01-10" }]) k
            = some ids →
          ∃ ids', objGet (getOverlapWarnings isoDateParse
            [{ id := .str "a", startDate := .str "2024-01-01", endDate := .str "2024-01-05" },
             { id := .str "e", startDate := .str "2024-01-04", endDate := .str "2024-01-06" },
             { id := .str "b", startDate := .str "2024-01-05", endDate := .str "2024-01-10" }]) k
              = some ids'
            ∧ ids.Sublist ids') :=
  getOverlapWarnings_monotone isoDateParse
    [{ id := .str "a", startDate := .str "2024-01-01", endDate := .str "2024-01-05" },
     { id := .str "b", startDate := .str "2024-01-05", endDate := .str "2024-01-10" }]
    [{ id := .str "a", startDate := .str "2024-01-01", endDate := .str "2024-01-05" },
     { id := .str "e", startDate := .str "2024-01-04", endDate := .str "2024-01-06" },
     { id := .str "b", startDate := .str "2024-01-05", endDate := .str "2024-01-10" }]
    (by decide) (by decide)

/-- C29, as stated, fails: with the project `p1` selected and only overlapping
tasks shown, the task `a` of `p1`, which overlaps the task `b` of `p2` and whose
id is a key of `getOverlapWarnings(tasks)`, is the one task shown; the map of
the chart, over the shown task alone, is empty and not
`getOverlapWarnings(tasks)`, and `GanttChart` does not flag `a`. -/
theorem shown_task_not_flagged :
    uniqueIds [taskOfP1, taskOfP2]
      ∧ toPropertyKey taskOfP1.id
          ∈ objKeys (getOverlapWarnings isoDateParse [taskOfP1, taskOfP2])
      ∧ timelineFilteredTasks objectPrototype isoDateParse [taskOfP1, taskOfP2]
          (.str "p1") true = [taskOfP1]
      ∧ timelineChartWarnings objectPrototype isoDateParse [taskOfP1, taskOfP2]
          (.str "p1") true = []
      ∧ timelineChartWarnings objectPrototype isoDateParse [taskOfP1, taskOfP2]
          (.str "p1") true ≠ getOverlapWarnings isoDateParse [taskOfP1, taskOfP2]
      ∧ ganttHasOverlap objectPrototype
          (timelineChartWarnings objectPrototype isoDateParse [taskOfP1, taskOfP2]
            (.str "p1") true) taskOfP1 = false := by
  decide

/-- C29, amended: restricting to the overlapping tasks preserves the warning
map when no project is selected.  For a collection with unique ids, whatever
the host answers for inherited property names: `getOverlapWarnings` of the list
that `Timeline` shows when only overlapping tasks are shown is
`getOverlapWarnings(tasks)`; it is the map of the chart; every task that has
both dates and a non-empty conflict sequence is shown and flagged as
overlapping by `GanttChart`; so is every task whose id is a key of
`getOverlapWarnings(tasks)`; and every task shown whose id names no truthy
inherited property is flagged. -/
theorem overlaps_only_preserves_map (inherited : Option (List JSVal) → String → Inherited)
    (parse : String → Option Int) (tasks : List Task)
    (hu : uniqueIds tasks) (sel : JSVal) (hsel : toBoolean sel = false) :
    getOverlapWarnings parse (timelineFilteredTasks inherited parse tasks sel true)
        = getOverlapWarnings parse tasks
      ∧ timelineChartWarnings inherited parse tasks sel true = getOverlapWarnings parse tasks
      ∧ (∀ t ∈ tasks, reportsConflicts parse tasks t →
          t ∈ timelineFilteredTasks inherited parse tasks sel true
            ∧ ganttHasOverlap inherited
                (timelineChartWarnings inherited parse tasks sel true) t = true)
      ∧ (∀ t ∈ tasks, toPropertyKey t.id ∈ objKeys (getOverlapWarnings parse tasks) →
          t ∈ timelineFilteredTasks inherited parse tasks sel true
            ∧ ganttHasOverlap inherited
                (timelineChartWarnings inherited parse tasks sel true) t = true)
      ∧ (∀ t ∈ timelineFilteredTasks inherited parse tasks sel true,
          (inherited (objGet (getOverlapWarnings parse tasks) "__proto__")
            (toPropertyKey t.id)).truthy = false →
          ganttHasOverlap inherited
            (timelineChartWarnings inherited parse tasks sel true) t = true) := by
  have hc := timelineChartWarnings_no_project inherited parse tasks hu sel hsel true
  have hk := timelineFilteredTasks_no_project inherited parse tasks sel hsel true
  have hw : getOverlapWarnings parse (timelineFilteredTasks inherited parse tasks sel true)
      = getOverlapWarnings parse tasks := by
    rw [hk]
    apply getOverlapWarnings_filter parse tasks hu
    intro t ht hr
    rw [readTruthy_of_reports inherited parse tasks hu t ht hr]
    rfl
  have h3 : ∀ t ∈ tasks, reportsConflicts parse tasks t →
      t ∈ timelineFilteredTasks inherited parse tasks sel true
        ∧ ganttHasOverlap inherited
            (timelineChartWarnings inherited parse tasks sel true) t = true := by
    intro t ht hr
    constructor
    · rw [hk, List.mem_filter, readTruthy_of_reports inherited parse tasks hu t ht hr]
      exact ⟨ht, rfl⟩
    · unfold ganttHasOverlap
      rw [hc]
      exact readLengthPositive_of_reports inherited parse tasks hu t ht hr
  refine ⟨hw, hc, h3, ?_, ?_⟩
  · intro t ht hkey
    exact h3 t ht ((item_key_mem_iff parse tasks hu t ht).mp
      (rawKeys_of_mem_objKeys _ _ hkey))
  · intro t ht hown
    rw [hk, List.mem_filter] at ht
    have hread : readTruthy inherited (getOverlapWarnings parse tasks) (toPropertyKey t.id)
        = true := by
      simpa using ht.2
    exact (h3 t ht.1 (reports_of_readTruthy inherited parse tasks hu t ht.1 hread hown)).2

/-- The sample collection with no project selected, on a host with the
properties of `Object.prototype`: `a` and `b` are shown and flagged. -/
theorem overlaps_only_preserves_map_witness :
    getOverlapWarnings isoDateParse
          (timelineFilteredTasks objectPrototype isoDateParse sampleTasks (.str "") true)
        = getOverlapWarnings isoDateParse sampleTasks
      ∧ timelineChartWarnings objectPrototype isoDateParse sampleTasks (.str "") true
        = getOverlapWarnings isoDateParse sampleTasks
      ∧ (∀ t ∈ sampleTasks, reportsConflicts isoDateParse sampleTasks t →
          t ∈ timelineFilteredTasks objectPrototype isoDateParse sampleTasks (.str "") true
            ∧ ganttHasOverlap objectPrototype
                (timelineChartWarnings objectPrototype isoDateParse sampleTasks (.str "") true)
                t = true)
      ∧ (∀ t ∈ sampleTasks,
          toPropertyKey t.id ∈ objKeys (getOverlapWarnings isoDateParse sampleTasks) →
          t ∈ timelineFilteredTasks objectPrototype isoDateParse sampleTasks (.str "") true
            ∧ ganttHasOverlap objectPrototype
                (timelineChartWarnings objectPrototype isoDateParse sampleTasks (.str "") true)
                t = true)
      ∧ (∀ t ∈ timelineFilteredTasks objectPrototype isoDateParse sampleTasks (.str "") true,
          (objectPrototype (objGet (getOverlapWarnings isoDateParse sampleTasks) "__proto__")
            (toPropertyKey t.id)).truthy = false →
          ganttHasOverlap objectPrototype
            (timelineChartWarnings objectPrototype isoDateParse sampleTasks (.str "") true)
            t = true) :=
  overlaps_only_preserves_map objectPrototype isoDateParse sampleTasks (by decide)
    (.str "") (by decide)

/-! ## The summary panel and the chart -/

/-- C23, as stated, fails: with the project `p1` selected, the tasks `a` of
`p1` and `b` of `p2`, which overlap, are both listed in the map of the summary
panel, and the map of the chart, over the visible task `a`, is empty. -/
theorem panel_map_not_chart_map :
    timelineOverlapWarnings isoDateParse
        [{ id := .str "a", startDate := .str "2024-01-01", endDate := .str "2024-01-05",
           projectId := .str "p1" },
         { id := .str "b", startDate := .str "2024-01-05", endDate := .str "2024-01-10",
           projectId := .str "p2" }]
        = [("a", [.str "b"]), ("b", [.str "a"])]
      ∧ timelineFilteredTasks objectPrototype isoDateParse
        [{ id := .str "a", startDate := .str "2024-01-01", endDate := .str "2024-01-05",
           projectId := .str "p1" },
         { id := .str "b", startDate := .str "2024-01-05", endDate := .str "2024-01-10",
           projectId := .str "p2" }] (.str "p1") false
        = [{ id := .str "a", startDate := .str "2024-01-01", endDate := .str "2024-01-05",
             projectId := .str "p1" }]
      ∧ timelineChartWarnings objectPrototype isoDateParse
        [{ id := .str "a", startDate := .str "2024-01-01", endDate := .str "2024-01-05",
           projectId := .str "p1" },
         { id := .str "b", startDate := .str "2024-01-05", endDate := .str "2024-01-10",
           projectId := .str "p2" }] (.str "p1") false
        = [] := by
  decide

/-- C23, amended: when no project is selected, the map that `Timeline` uses
for the summary panel equals the map of `GanttChart`, which is
`getOverlapWarnings` of the visible tasks: for every task list when all tasks
are shown, and for every task list with unique ids when only overlapping tasks
are shown, whatever the host answers for inherited property names. -/
theorem chart_map_eq_panel_map (inherited : Option (List JSVal) → String → Inherited)
    (parse : String → Option Int) (tasks : List Task)
    (sel : JSVal) (showOverlapsOnly : Bool) (hsel : toBoolean sel = false)
    (h : showOverlapsOnly = false ∨ uniqueIds tasks) :
    timelineChartWarnings inherited parse tasks sel showOverlapsOnly
        = timelineOverlapWarnings parse tasks
      ∧ timelineChartWarnings inherited parse tasks sel showOverlapsOnly
        = getOverlapWarnings parse (timelineFilteredTasks inherited parse tasks sel showOverlapsOnly) := by
  have hc : timelineChartWarnings inherited parse tasks sel showOverlapsOnly
      = getOverlapWarnings parse
          (timelineFilteredTasks inherited parse tasks sel showOverlapsOnly) := by
    unfold timelineChartWarnings ganttOverlapWarnings ganttFilteredTasks
    simp only [hsel, Bool.false_eq_true, if_false]
    simp [toBoolean]
  refine ⟨?_, hc⟩
  unfold timelineOverlapWarnings
  cases showOverlapsOnly with
  | false =>
    rw [hc, timelineFilteredTasks_no_project inherited parse tasks sel hsel]
    simp
  | true =>
    rcases h with h | h
    · cases h
    · exact timelineChartWarnings_no_project inherited parse tasks h sel hsel true

/-- The sample collection with no project selected and all tasks shown. -/
theorem chart_map_eq_panel_map_witness :
    timelineChartWarnings objectPrototype isoDateParse sampleTasks (.str "") false
        = timelineOverlapWarnings isoDateParse sampleTasks
      ∧ timelineChartWarnings objectPrototype isoDateParse sampleTasks (.str "") false
        = getOverlapWarnings isoDateParse
            (timelineFilteredTasks objectPrototype isoDateParse sampleTasks (.str "") false) :=
  chart_map_eq_panel_map objectPrototype isoDateParse sampleTasks (.str "") false (by decide)
    (Or.inl rfl)

/-- C24, as stated, fails: for two overlapping tasks with the number ids 1 and
2 (unique ids), the map has the entries `"1"` and `"2"`, the lookup
`t.id === key` compares a number with a string and finds no task, and both
rows of the panel are dropped. -/
theorem panel_rows_dropped_for_number_ids :
    uniqueIds
        [{ id := .num 1, startDate := .str "2024-01-01", endDate := .str "2024-01-05",
           title := .str "Design" },
         { id := .num 2, startDate := .str "2024-01-05", endDate := .str "2024-01-10",
           title := .str "Build" }]
      ∧ timelineOverlapWarnings isoDateParse
        [{ id := .num 1, startDate := .str "2024-01-01", endDate := .str "2024-01-05",
           title := .str "Design" },
         { id := .num 2, startDate := .str "2024-01-05", endDate := .str "2024-01-10",
           title := .str "Build" }]
        = [("1", [.num 2]), ("2", [.num 1])]
      ∧ findTask
        [{ id := .num 1, startDate := .str "2024-01-01", endDate := .str "2024-01-05",
           title := .str "Design" },
         { id := .num 2, startDate := .str "2024-01-05", endDate := .str "2024-01-10",
           title := .str "Build" }] (.str "1") = none
      ∧ overlapPanel isoDateParse
        [{ id := .num 1, startDate := .str "2024-01-01", endDate := .str "2024-01-05",
           title := .str "Design" },
         { id := .num 2, startDate := .str "2024-01-05", endDate := .str "2024-01-10",
           title := .str "Build" }]
        = [none, none] := by
  decide

/-- C24, amended: for a task list with unique ids that are all strings, every
entry of the warning map of `Timeline` is the entry of a task `x` of the list,
the lookup `t.id === key` finds `x`, so the row is rendered with the title of
`x`, and every listed id is the id of a task of the list that the lookup
`t.id === id` finds and whose title is the name shown (the id itself when the
title is empty or missing). -/
theorem panel_row_of_string_ids (parse : String → Option Int) (tasks : List Task)
    (hu : uniqueIds tasks) (hs : ∀ t ∈ tasks, t.id.isString = true)
    (entry : String × List JSVal) (he : entry ∈ timelineOverlapWarnings parse tasks) :
    ∃ x ∈ tasks, toPropertyKey x.id = entry.1
      ∧ entry.2 = findOverlappingTasks parse x tasks
      ∧ findTask tasks (.str entry.1) = some x
      ∧ panelRow tasks entry = some (x.title, entry.2.map (panelName tasks))
      ∧ (∀ i ∈ entry.2, ∃ t ∈ tasks, t.id = i ∧ findTask tasks i = some t
          ∧ panelName tasks i = (if toBoolean t.title then t.title else i)) := by
  have huniq : ∀ x ∈ tasks, ∀ y ∈ tasks, y.id = x.id → y = x :=
    fun x hx y hy h => uniqueIds_eq_of_key tasks hu y x hy hx (by rw [h])
  unfold timelineOverlapWarnings at he
  rcases mem_foldl_entries parse tasks tasks [] entry he with h | ⟨x, hx, _, rfl⟩
  · simp at h
  · obtain ⟨sx, hsx⟩ : ∃ sx, x.id = JSVal.str sx := by
      have h := hs x hx
      cases hid : x.id <;> simp [hid, JSVal.isString] at h ⊢
    have hfind : findTask tasks (.str (toPropertyKey x.id)) = some x := by
      have h := findTask_of_mem tasks x hx (huniq x hx)
      rw [hsx] at h ⊢
      exact h
    refine ⟨x, hx, rfl, rfl, hfind, ?_, ?_⟩
    · simp only [panelRow, hfind]
    · intro i hi
      obtain ⟨t, ht, hid, _⟩ := (mem_findOverlappingTasks parse x tasks i).mp hi
      have hft : findTask tasks i = some t := by
        rw [← hid]
        exact findTask_of_mem tasks t ht (huniq t ht)
      refine ⟨t, ht, hid, hft, ?_⟩
      simp only [panelName, hft]

/-- The entry of `a` in the map of two titled tasks with string ids. -/
theorem panel_row_of_string_ids_witness :
    ∃ x ∈ ([{ id := .str "a", startDate := .str "2024-01-01", endDate := .str "2024-01-05",
              title := .str "Design" },
            { id := .str "b", startDate := .str "2024-01-05", endDate := .str "2024-01-10",
              title := .str "Build" }] : List Task),
      toPropertyKey x.id = ("a", [JSVal.str "b"]).1
      ∧ ("a", [JSVal.str "b"]).2 = findOverlappingTasks isoDateParse x
          [{ id := .str "a", startDate := .str "2024-01-01", endDate := .str "2024-01-05",
             title := .str "Design" },
           { id := .str "b", startDate := .str "2024-01-05", endDate := .str "2024-01-10",
             title := .str "Build" }]
      ∧ findTask
          [{ id := .str "a", startDate := .str "2024-01-01", endDate := .str "2024-01-05",
             title := .str "Design" },
           { id := .str "b", startDate := .str "2024-01-05", endDate := .str "2024-01-10",
             title := .str "Build" }] (.str ("a", [JSVal.str "b"]).1) = some x
      ∧ panelRow
          [{ id := .str "a", startDate := .str "2024-01-01", endDate := .str "2024-01-05",
             title := .str "Design" },
           { id := .str "b", startDate := .str "2024-01-05", endDate := .str "2024-01-10",
             title := .str "Build" }] ("a", [JSVal.str "b"])
          = some (x.title, ("a", [JSVal.str "b"]).2.map (panelName
            [{ id := .str "a", startDate := .str "2024-01-01", endDate := .str "2024-01-05",
               title := .str "Design" },
             { id := .str "b", startDate := .str "2024-01-05", endDate := .str "2024-01-10",
               title := .str "Build" }]))
      ∧ (∀ i ∈ ("a", [JSVal.str "b"]).2, ∃ t ∈
          ([{ id := .str "a", startDate := .str "2024-01-01", endDate := .str "2024-01-05",
              title := .str "Design" },
            { id := .str "b", startDate := .str "2024-01-05", endDate := .str "2024-01-10",
              title := .str "Build" }] : List Task),
          t.id = i ∧ findTask
            [{ id := .str "a", startDate := .str "2024-01-01", endDate := .str "2024-01-05",
               title := .str "Design" },
             { id := .str "b", startDate := .str "2024-01-05", endDate := .str "2024-01-10",
               title := .str "Build" }] i = some t
          ∧ panelName
            [{ id := .str "a", startDate := .str "2024-01-01", endDate := .str "2024-01-05",
               title := .str "Design" },
             { id := .str "b", startDate := .str "2024-01-05", endDate := .str "2024-01-10",
               title := .str "Build" }] i = (if toBoolean t.title then t.title else i)) :=
  panel_row_of_string_ids isoDateParse
    [{ id := .str "a", startDate := .str "2024-01-01", endDate := .str "2024-01-05",
       title := .str "Design" },
     { id := .str "b", startDate := .str "2024-01-05", endDate := .str "2024-01-10",
       title := .str "Build" }]
    (by decide) (by decide) ("a", [JSVal.str "b"]) (by decide)

/-! ## The dates of the chart -/

/-- C26 on the code, in a time zone five hours west of UTC: for the task from 5
to 10 January 2024 the item has the start date `2024-01-04` and the end date
`2024-01-09`, which is not the end date of the task, and for the same task
without an end date the end date `2024-01-05`, which is not its start date
plus one day.  At UTC the item has `2024-01-05` and `2024-01-10`, and
`2024-01-06` without an end date. -/
theorem ganttItemDates_west_of_utc :
    ganttItemDates isoDateParse (-18000000)
        { id := .str "a", startDate := .str "2024-01-05", endDate := .str "2024-01-10" }
        = some ("2024-01-04", "2024-01-09")
      ∧ ganttItemDates isoDateParse (-18000000)
        { id := .str "a", startDate := .str "2024-01-05", endDate := .undefined }
        = some ("2024-01-04", "2024-01-05")
      ∧ ganttItemDates isoDateParse 0
        { id := .str "a", startDate := .str "2024-01-05", endDate := .str "2024-01-10" }
        = some ("2024-01-05", "2024-01-10")
      ∧ ganttItemDates isoDateParse 0
        { id := .str "a", startDate := .str "2024-01-05", endDate := .undefined }
        = some ("2024-01-05", "2024-01-06") := by
  decide

end TaskOverlap
